import Mathlib

/-!
Verification development for the airport taxi/runway network module
(`LTApt.cpp`): data model (`TaxiNode`, `RwyEndPt`, `TaxiEdge`, `Apt`),
graph-builder operations, the angle-sorted heading search, the bounded
Dijkstra shortest-path search, position snapping and runway selection.

Doubles are modelled as exact rationals (`ℚ`), `NAN` as `Option.none`,
`HUGE_VAL` as `⊤ : WithTop ℚ`.  The geometry utilities (`CoordAngle`,
`DistLatLon`, …) and tuning constants live in headers that are not part
of the sources at hand; they are collected in an `Env` record modelled
from the spec (spec §2 "Geometry utilities … assumed available as a
library", §4 constants "configurable").  Container accesses performed
with `operator[]`/`.at` are modelled with `List.getD`/`List.set`
(`List.set` is the identity out of range); cases where the C++ code
would throw from `.at` are modelled by `Option.none` results or are
excluded by the stated well-formedness hypotheses, as noted per
definition.
-/

/-- Result record of `DistPointToLineSqr` (`distToLineTy`): squared distance to
the line, the squared distance of the base point beyond the segment ends
(`DistSqrOfBaseBeyondLine`), and the projection parameter of the base point
along the segment, which `DistResultToBaseLoc` consumes.  Modelled from the
spec §4.3. -/
structure DistToLine where
  dist2 : ℚ
  beyond2 : ℚ
  baseT : ℚ
deriving DecidableEq

/-- Modelled from the spec: the geometry utility library (spec §2: planar
distance/angle conversions between lat/lon and local meters, point-to-segment
distance; "assumed available as a library") together with the configuration
constants from the headers not present under the sources at hand
(`APT_MAX_SIMILAR_NODE_DIST_M`, `ART_…` constants, `dataRefs` lookups).
Headings produced by `coordAngle`/`vecBetween`/`headingNormalize` are compass
headings; where a theorem needs their `[0°,360°)` range it takes it as an
explicit hypothesis. -/
structure Env where
  coordAngle : ℚ → ℚ → ℚ → ℚ → ℚ
  coordDistance : ℚ → ℚ → ℚ → ℚ → ℚ
  distLatLon : ℚ → ℚ → ℚ → ℚ → ℚ
  dist2Lat : ℚ → ℚ
  dist2Lon : ℚ → ℚ → ℚ
  lat2Dist : ℚ → ℚ
  lon2Dist : ℚ → ℚ → ℚ
  headingNormalize : ℚ → ℚ
  headingDiff : ℚ → ℚ → ℚ
  distPointToLineSqr : ℚ → ℚ → ℚ → ℚ → ℚ → ℚ → DistToLine
  distResultToBaseLoc : ℚ → ℚ → ℚ → ℚ → DistToLine → ℚ × ℚ
  vecBetween : ℚ → ℚ → ℚ → ℚ → ℚ × ℚ
  vecAdd : ℚ → ℚ → ℚ → ℚ → ℚ × ℚ
  maxSimilarNodeDist : ℚ
  artEdgeAngleExtDist : ℚ
  artRwyTdPointF : ℚ
  artRwyMaxHeadDiff : ℚ
  artRwyMaxVsiF : ℚ
  msPerFtm : ℚ
  artApprSpeedF : ℚ
  ktPerMs : ℚ
  artEdgeAngleTolerance : ℚ
  artEdgeAngleToleranceExt : ℚ
  fdSnapTaxiDist : ℚ
  similarTsIntvl : ℚ

/-- Modelled from the spec §3: the airport bounding box, "enlarged
incrementally as nodes/edges are added" (`boundingBoxTy` is not among the
sources at hand).  `none` components mean the box is still empty. -/
structure BBox where
  latMin : Option ℚ
  latMax : Option ℚ
  lonMin : Option ℚ
  lonMax : Option ℚ
deriving DecidableEq

/-- Enlarge a bounding box so that it contains the given position
(`boundingBoxTy::enlarge_pos`, modelled from the spec). -/
def bboxEnlargePos (b : BBox) (lat lon : ℚ) : BBox :=
  { latMin := some (match b.latMin with | none => lat | some v => min v lat)
    latMax := some (match b.latMax with | none => lat | some v => max v lat)
    lonMin := some (match b.lonMin with | none => lon | some v => min v lon)
    lonMax := some (match b.lonMax with | none => lon | some v => max v lon) }

/-- A node of the taxi network (`TaxiNode`): latitude/longitude (`none` models
`NAN`, as set by the default constructor) and the indexes of the edges
connecting to this node.  The Dijkstra scratch fields (`pathLen`, `prevIdx`,
`bVisited`) are re-initialized by `InitDijkstraAttr` at the start of every
search and are therefore modelled as the separate search state `DijkState`. -/
structure TaxiNode where
  lat : Option ℚ
  lon : Option ℚ
  vecEdges : List Nat
deriving DecidableEq

/-- The all-empty node produced by the `TaxiNode` default constructor. -/
def TaxiNode.empty : TaxiNode := ⟨none, none, []⟩

/-- Is the node valid in terms of geographic coordinates?
(`TaxiNode::HasGeoCoords`). -/
def TaxiNode.hasGeoCoords (n : TaxiNode) : Bool :=
  n.lat.isSome && n.lon.isSome

/-- A runway endpoint (`RwyEndPt`), a `TaxiNode` plus the runway identifier,
the lazily computed ground altitude (`none` models `NAN`), and the taxi nodes
joining this runway end. -/
structure RwyEndPt extends TaxiNode where
  id : String
  alt_m : Option ℚ
  vecTaxiNodes : List Nat
deriving DecidableEq

/-- The all-empty runway endpoint (default constructor). -/
def RwyEndPt.empty : RwyEndPt := ⟨TaxiNode.empty, "", none, []⟩

/-- Edge type (`TaxiEdge::nodeTy`). -/
inductive EdgeTy where
  | UNKNOWN_WAY
  | RUN_WAY
  | TAXI_WAY
deriving DecidableEq

/-- An edge of the taxi/runway network (`TaxiEdge`): node indexes `a`, `b`
(into `Apt.vecRwyEndPts` for runway edges, into `Apt.vecTaxiNodes`
otherwise), the heading angle from `a` to `b` and the length in meters. -/
structure TaxiEdge where
  type : EdgeTy
  a : Nat
  b : Nat
  angle : ℚ
  dist_m : ℚ
deriving DecidableEq

/-- Normalize an edge to `0 ≤ angle < 180` (`TaxiEdge::Normalize`): if the
angle is `≥ 180` the nodes are swapped and `180` is subtracted. -/
def TaxiEdge.normalize (e : TaxiEdge) : TaxiEdge :=
  if 180 ≤ e.angle then
    { e with a := e.b, b := e.a, angle := e.angle - 180 }
  else e

/-- The `TaxiEdge` constructor: store the fields, then `Normalize`. -/
def TaxiEdge.make (t : EdgeTy) (a b : Nat) (angle dist_m : ℚ) : TaxiEdge :=
  TaxiEdge.normalize ⟨t, a, b, angle, dist_m⟩

/-- Set a new end node, usually when splitting edges
(`TaxiEdge::SetEndNode`): assign, then `Normalize`. -/
def TaxiEdge.setEndNode (e : TaxiEdge) (b : Nat) (angle dist_m : ℚ) : TaxiEdge :=
  TaxiEdge.normalize { e with b := b, angle := angle, dist_m := dist_m }

/-- Return the "other" node of an edge (`TaxiEdge::otherNode`). -/
def TaxiEdge.otherNode (e : TaxiEdge) (n : Nat) : Nat :=
  if n = e.a then e.b else e.a

/-- The angle pointing away from node `n` (`TaxiEdge::GetAngleFrom`). -/
def TaxiEdge.getAngleFrom (e : TaxiEdge) (n : Nat) : ℚ :=
  if n = e.a then e.angle else e.angle + 180

/-- The edge's angle closest to the given heading (`TaxiEdge::GetAngleByHead`). -/
def TaxiEdge.getAngleByHead (env : Env) (e : TaxiEdge) (heading : ℚ) : ℚ :=
  if |env.headingDiff heading e.angle| < 90 then e.angle else e.angle + 180

/-- Index of the edge's start node when looking in the given direction
(`TaxiEdge::startByHeading`, index overload). -/
def TaxiEdge.startIdxByHeading (env : Env) (e : TaxiEdge) (heading : ℚ) : Nat :=
  if |env.headingDiff heading e.angle| < 90 then e.a else e.b

/-- Index of the edge's end node when looking in the given direction
(`TaxiEdge::endByHeading`, index overload). -/
def TaxiEdge.endIdxByHeading (env : Env) (e : TaxiEdge) (heading : ℚ) : Nat :=
  if |env.headingDiff heading e.angle| < 90 then e.b else e.a

/-- An airport as read from `apt.dat` (`Apt`): id, bounding box, altitude,
the node/runway-endpoint/edge stores, and the edge-index array sorted by
edge angle. -/
structure Apt where
  id : String
  bounds : BBox
  alt_m : Option ℚ
  vecTaxiNodes : List TaxiNode
  vecRwyEndPts : List RwyEndPt
  vecTaxiEdges : List TaxiEdge
  vecTaxiEdgesIdxHead : List Nat
deriving DecidableEq

/-- A fresh airport object (`Apt` constructor). -/
def Apt.mkEmpty (id : String) : Apt :=
  ⟨id, ⟨none, none, none, none⟩, none, [], [], [], []⟩

/-- Taxi node lookup; out-of-range access yields the default-constructed node
(the C++ `operator[]` counterpart; `.at`-throwing call sites are noted at
their models). -/
def Apt.nodeD (apt : Apt) (i : Nat) : TaxiNode :=
  apt.vecTaxiNodes.getD i TaxiNode.empty

/-- Runway endpoint lookup, defaulting like `Apt.nodeD`. -/
def Apt.rwyD (apt : Apt) (i : Nat) : RwyEndPt :=
  apt.vecRwyEndPts.getD i RwyEndPt.empty

/-- Edge lookup, defaulting like `Apt.nodeD`. -/
def Apt.edgeD (apt : Apt) (i : Nat) : TaxiEdge :=
  apt.vecTaxiEdges.getD i ⟨EdgeTy.UNKNOWN_WAY, 0, 0, 0, 0⟩

/-- Return the edge's `a` node object (`TaxiEdge::GetA`): runway edges index
into the runway-endpoint store, all others into the taxi-node store. -/
def TaxiEdge.getA (apt : Apt) (e : TaxiEdge) : TaxiNode :=
  if e.type = EdgeTy.RUN_WAY then (apt.rwyD e.a).toTaxiNode else apt.nodeD e.a

/-- Return the edge's `b` node object (`TaxiEdge::GetB`). -/
def TaxiEdge.getB (apt : Apt) (e : TaxiEdge) : TaxiNode :=
  if e.type = EdgeTy.RUN_WAY then (apt.rwyD e.b).toTaxiNode else apt.nodeD e.b

/-- The node object that is the start of the edge in the given direction
(`TaxiEdge::startByHeading`, node overload). -/
def TaxiEdge.startNodeByHeading (env : Env) (apt : Apt) (e : TaxiEdge) (heading : ℚ) : TaxiNode :=
  if |env.headingDiff heading e.angle| < 90 then e.getA apt else e.getB apt

/-- The node object that is the end of the edge in the given direction
(`TaxiEdge::endByHeading`, node overload). -/
def TaxiEdge.endNodeByHeading (env : Env) (apt : Apt) (e : TaxiEdge) (heading : ℚ) : TaxiNode :=
  if |env.headingDiff heading e.angle| < 90 then e.getB apt else e.getA apt

/-- Latitude of a node with `NAN` read as `0` (only used after
`hasGeoCoords` checks or where the C++ code would compute with `NAN`). -/
def TaxiNode.latD (n : TaxiNode) : ℚ := n.lat.getD 0

/-- Longitude counterpart of `TaxiNode.latD`. -/
def TaxiNode.lonD (n : TaxiNode) : ℚ := n.lon.getD 0

/-- The per-node test of `Apt::GetSimilarTaxiNode`'s `find_if` lambda: the
node is not the excluded one and lies within the (lat/lon converted) merge
threshold of the given coordinates; `n.lat`/`n.lon` being `NAN` makes the
comparisons false, exactly as in C++. -/
def similarNodeTest (env : Env) (nodes : List TaxiNode) (lat lon : ℚ)
    (dontCombineWith : Option Nat) (i : Nat) : Bool :=
  decide (dontCombineWith ≠ some i) &&
  (match (nodes.getD i TaxiNode.empty).lat, (nodes.getD i TaxiNode.empty).lon with
   | some nlat, some nlon =>
     decide (|nlat - lat| ≤ env.dist2Lat env.maxSimilarNodeDist) &&
     decide (|nlon - lon| ≤ env.dist2Lon env.maxSimilarNodeDist lat)
   | _, _ => false)

/-- Find a "close-by" taxi node (`Apt::GetSimilarTaxiNode`): the first node
passing `similarNodeTest`, by index. -/
def Apt.getSimilarTaxiNode (env : Env) (apt : Apt) (lat lon : ℚ)
    (dontCombineWith : Option Nat) : Option Nat :=
  (List.range apt.vecTaxiNodes.length).find?
    (similarNodeTest env apt.vecTaxiNodes lat lon dontCombineWith)

/-- Add a new taxi network node (`Apt::AddTaxiNode`): reuse a similar
close-by node if one exists, otherwise enlarge the bounding box and append.
Returns the node's index together with the updated airport. -/
def Apt.addTaxiNode (env : Env) (apt : Apt) (lat lon : ℚ)
    (dontCombineWith : Option Nat) : Nat × Apt :=
  match apt.getSimilarTaxiNode env lat lon dontCombineWith with
  | some i => (i, apt)
  | none =>
    let apt' := { apt with
      bounds := bboxEnlargePos apt.bounds lat lon,
      vecTaxiNodes := apt.vecTaxiNodes ++ [⟨some lat, some lon, []⟩] }
    (apt'.vecTaxiNodes.length - 1, apt')

/-- Add a taxi node at a given index position (`Apt::AddTaxiNodeFixed`),
growing the store as needed; gap nodes are default-constructed (no
coordinates). -/
def Apt.addTaxiNodeFixed (apt : Apt) (lat lon : ℚ) (idx : Nat) : Apt :=
  let bounds' := bboxEnlargePos apt.bounds lat lon
  if idx = apt.vecTaxiNodes.length then
    { apt with bounds := bounds',
               vecTaxiNodes := apt.vecTaxiNodes ++ [⟨some lat, some lon, []⟩] }
  else
    let grown :=
      if apt.vecTaxiNodes.length < idx then
        apt.vecTaxiNodes ++ List.replicate (idx + 1 - apt.vecTaxiNodes.length) TaxiNode.empty
      else apt.vecTaxiNodes
    { apt with bounds := bounds',
               vecTaxiNodes := grown.set idx ⟨some lat, some lon, []⟩ }

/-- Append an edge index to a node's connection list, leaving the store
unchanged when the node index is out of range. -/
def Apt.pushNodeEdge (apt : Apt) (n eIdx : Nat) : Apt :=
  let n' := { apt.nodeD n with vecEdges := (apt.nodeD n).vecEdges ++ [eIdx] }
  { apt with vecTaxiNodes := apt.vecTaxiNodes.set n n' }

/-- Result of `Apt::AddTaxiEdge`: `thrown` models the `std::out_of_range`
exception of the two `.at` accesses, `failed` the `ULONG_MAX` return (the
airport is carried along to state that it is unchanged). -/
inductive AddEdgeResult where
  | thrown
  | failed (apt : Apt)
  | ok (idx : Nat) (apt : Apt)
deriving DecidableEq

/-- Add a taxi network edge between two existing nodes (`Apt::AddTaxiEdge`).
Fails (returning `ULONG_MAX`, modelled `failed`) if either node lacks
geographic coordinates; otherwise computes the distance if not supplied
(`_dist = NAN` modelled as `none`), appends the edge — the constructor
normalizes it — and registers the edge index on both end nodes. -/
def Apt.addTaxiEdge (env : Env) (apt : Apt) (n1 n2 : Nat) (dist : Option ℚ) :
    AddEdgeResult :=
  if n1 < apt.vecTaxiNodes.length ∧ n2 < apt.vecTaxiNodes.length then
    let a := apt.nodeD n1
    let b := apt.nodeD n2
    if a.hasGeoCoords && b.hasGeoCoords then
      let d := match dist with
               | some d => d
               | none => env.distLatLon a.latD a.lonD b.latD b.lonD
      let e := TaxiEdge.make EdgeTy.TAXI_WAY n1 n2
                 (env.coordAngle a.latD a.lonD b.latD b.lonD) d
      let apt1 := { apt with vecTaxiEdges := apt.vecTaxiEdges ++ [e] }
      let eIdx := apt1.vecTaxiEdges.length - 1
      AddEdgeResult.ok eIdx ((apt1.pushNodeEdge n1 eIdx).pushNodeEdge n2 eIdx)
    else
      AddEdgeResult.failed apt
  else
    AddEdgeResult.thrown

/-- Recalculate heading and distance of an edge from its current endpoint
coordinates and re-`Normalize` (`Apt::RecalcTaxiEdge`, by edge index). -/
def Apt.recalcTaxiEdge (env : Env) (apt : Apt) (eIdx : Nat) : Apt :=
  let e := apt.edgeD eIdx
  let a := e.getA apt
  let b := e.getB apt
  let e' := TaxiEdge.normalize
    { e with angle := env.coordAngle a.latD a.lonD b.latD b.lonD,
             dist_m := env.distLatLon a.latD a.lonD b.latD b.lonD }
  { apt with vecTaxiEdges := apt.vecTaxiEdges.set eIdx e' }

/-- Split an edge by inserting a given node (`Apt::SplitEdge`): shorten the
edge to end at `insNode` (`SetEndNode`), fix both nodes' connection lists,
then add a new edge from `insNode` to the original far endpoint.  `none`
models the exception of the `.at` accesses on `eIdx`/`insNode`. -/
def Apt.splitEdge (env : Env) (apt : Apt) (eIdx insNode : Nat) : Option Apt :=
  if eIdx < apt.vecTaxiEdges.length then
    let e := apt.edgeD eIdx
    if insNode = e.a ∨ insNode = e.b then some apt
    else if insNode < apt.vecTaxiNodes.length then
      let joinOrigB := e.b
      let a := e.getA apt
      let b := apt.nodeD insNode
      let e' := e.setEndNode insNode
                  (env.coordAngle a.latD a.lonD b.latD b.lonD)
                  (env.distLatLon a.latD a.lonD b.latD b.lonD)
      let apt1 := { apt with vecTaxiEdges := apt.vecTaxiEdges.set eIdx e' }
      let apt2 := apt1.pushNodeEdge insNode eIdx
      let ob' := { apt2.nodeD joinOrigB with
                   vecEdges := (apt2.nodeD joinOrigB).vecEdges.filter (fun i => i ≠ eIdx) }
      let apt3 := { apt2 with vecTaxiNodes := apt2.vecTaxiNodes.set joinOrigB ob' }
      match apt3.addTaxiEdge env insNode joinOrigB none with
      | AddEdgeResult.thrown => none
      | AddEdgeResult.failed apt4 => some apt4
      | AddEdgeResult.ok _ apt4 => some apt4
    else none
  else none

/-- Fill the indirect edge-index array sorted by edge angle
(`Apt::SortTaxiEdges`): re-create the identity index if the sizes diverge,
then sort by the linked edge's angle.  `std::sort` with a strict-`<`
comparator produces some nondecreasing-by-angle permutation; the model picks
the stable such permutation (`mergeSort`). -/
def Apt.sortTaxiEdges (apt : Apt) : Apt :=
  let idx := if apt.vecTaxiEdges.length ≠ apt.vecTaxiEdgesIdxHead.length
             then List.range apt.vecTaxiEdges.length
             else apt.vecTaxiEdgesIdxHead
  { apt with vecTaxiEdgesIdxHead :=
      idx.mergeSort (fun i j => decide ((apt.edgeD i).angle ≤ (apt.edgeD j).angle)) }

/-- Add both runway endpoints and the runway edge from the `apt.dat` fields
(`Apt::AddRwyEnds`): move each end inward by its displaced threshold plus the
fixed touch-down fraction of the remaining length, shrink the stored length
accordingly, enlarge the bounding box, append both endpoints and the one
`RUN_WAY` edge between them (the edge constructor normalizes the angle). -/
def Apt.addRwyEnds (env : Env) (apt : Apt)
    (lat1 lon1 displaced1 : ℚ) (id1 : String)
    (lat2 lon2 displaced2 : ℚ) (id2 : String) : Apt :=
  let v := env.vecBetween lat1 lon1 lat2 lon2
  let d1 := v.2 - displaced1 - displaced2
  let p1 := env.vecAdd lat1 lon1 v.1 (displaced1 + d1 * env.artRwyTdPointF)
  let p2 := env.vecAdd lat2 lon2 v.1 (-(displaced2 + d1 * env.artRwyTdPointF))
  let d2 := d1 * (1 - 2 * env.artRwyTdPointF)
  let eps := apt.vecRwyEndPts ++
    [⟨⟨some p1.1, some p1.2, []⟩, id1, none, []⟩,
     ⟨⟨some p2.1, some p2.2, []⟩, id2, none, []⟩]
  { apt with
    bounds := bboxEnlargePos (bboxEnlargePos apt.bounds p1.1 p1.2) p2.1 p2.2,
    vecRwyEndPts := eps,
    vecTaxiEdges := apt.vecTaxiEdges ++
      [TaxiEdge.make EdgeTy.RUN_WAY (eps.length - 2) (eps.length - 1) v.1 d2] }

/-- One search range of `Apt::FindEdgesForHeading`: starting from the
`std::lower_bound` position of `lo` in the angle-sorted index (the first
entry whose edge angle is not `< lo`; on the angle-partitioned index this is
`dropWhile`), walk while the edge angle is `≤ hi`, collecting entries that
pass the type restriction. -/
def Apt.rangeScan (apt : Apt) (lo hi : ℚ) (restrictType : EdgeTy) : List Nat :=
  (((apt.vecTaxiEdgesIdxHead.dropWhile (fun i => decide ((apt.edgeD i).angle < lo))).takeWhile
      (fun i => decide ((apt.edgeD i).angle ≤ hi))).filter
    (fun i => restrictType = EdgeTy.UNKNOWN_WAY ∨ restrictType = (apt.edgeD i).type))

/-- Return the taxiway edges matching a heading range
(`Apt::FindEdgesForHeading`): normalize the search heading into `[0,180)`,
build the tolerance window `[heading−tol, heading+tol]`, split it into up to
two sub-ranges when it spills below `0` or above `180`, and query each
sub-range on the angle-sorted index.  The C++ out-parameter list is the
returned list (all callers pass an empty list). -/
def Apt.findEdgesForHeading (apt : Apt) (headSearch : ℚ) (angleTolerance : ℚ)
    (restrictType : EdgeTy) : List Nat :=
  let h := if 180 ≤ headSearch then headSearch - 180 else headSearch
  let headBegin := h - angleTolerance
  let headEnd := h + angleTolerance
  if 0 ≤ headBegin ∧ headEnd < 180 then
    apt.rangeScan headBegin headEnd restrictType
  else if headBegin < 0 then
    apt.rangeScan 0 headEnd restrictType ++
      apt.rangeScan (headBegin + 180) 180 restrictType
  else
    apt.rangeScan 0 (headEnd - 180) restrictType ++
      apt.rangeScan headBegin 180 restrictType

/-- The predecessor scratch value of a node during a shortest-path search:
`unset` models `ULONG_MAX` (initial), `startMark` models `ULONG_MAX-1`
("is a start node"), `node p` a real predecessor index. -/
inductive Prev where
  | unset
  | startMark
  | node (p : Nat)
deriving DecidableEq

/-- The Dijkstra scratch state: per-node `pathLen` (`⊤` models `HUGE_VAL`),
`prevIdx` and `bVisited` (the fields reset by `InitDijkstraAttr`), plus the
visit list `vecVisit` of `Apt::ShortestPath`. -/
structure DijkState where
  pathLen : List (WithTop ℚ)
  prevIdx : List Prev
  visited : List Bool
  vecVisit : List Nat
deriving DecidableEq

/-- Path length of a node, `⊤` (= `HUGE_VAL`) out of range. -/
def DijkState.pl (s : DijkState) (n : Nat) : WithTop ℚ :=
  s.pathLen.getD n ⊤

/-- Predecessor of a node, `unset` (= `ULONG_MAX`) out of range. -/
def DijkState.pv (s : DijkState) (n : Nat) : Prev :=
  s.prevIdx.getD n Prev.unset

/-- Visited flag of a node, `false` out of range. -/
def DijkState.vis (s : DijkState) (n : Nat) : Bool :=
  s.visited.getD n false

/-- The state after `InitDijkstraAttr` ran on all `n` nodes. -/
def initDijkstra (n : Nat) : DijkState :=
  ⟨List.replicate n ⊤, List.replicate n Prev.unset, List.replicate n false, []⟩

/-- Seed one start node: distance `0`, predecessor `ULONG_MAX-1`
(`startMark`), pushed onto the visit list. -/
def seedNode (s : DijkState) (n : Nat) : DijkState :=
  { s with pathLen := s.pathLen.set n 0,
           prevIdx := s.prevIdx.set n Prev.startMark,
           vecVisit := s.vecVisit ++ [n] }

/-- Seed all start nodes in order. -/
def seedAll (s : DijkState) (ns : List Nat) : DijkState :=
  ns.foldl seedNode s

/-- The inner scan of `Apt::ShortestPath` fetching the visit-list entry with
the shortest known distance: a left-to-right scan keeping the first strict
minimum, returning the node and its distance. -/
def findShortest (pl : List (WithTop ℚ)) : List Nat → Nat × WithTop ℚ
  | [] => (0, ⊤)
  | x :: xs =>
    xs.foldl
      (fun best i => if pl.getD i ⊤ < best.2 then (i, pl.getD i ⊤) else best)
      (x, pl.getD x ⊤)

/-- `push_back_unique`: append unless already present. -/
def pushBackUnique (l : List Nat) (x : Nat) : List Nat :=
  if x ∈ l then l else l ++ [x]

/-- The relaxation loop of `Apt::ShortestPath` over the visited node's edge
list: skip already-visited neighbours, skip when the cumulative distance
exceeds `maxLen` (the hard prune) or the neighbour already has a path at
most as long, otherwise update distance/predecessor; if the updated node is
the destination, `break` out of the loop, else add the node to the visit
list (`push_back_unique`). -/
def relaxEdges (apt : Apt) (endN : Nat) (maxLen : ℚ) (sIdx : Nat)
    (sDist : WithTop ℚ) : List Nat → DijkState → DijkState
  | [], s => s
  | eIdx :: rest, s =>
    let e := apt.edgeD eIdx
    let updN := e.otherNode sIdx
    if s.vis updN then relaxEdges apt endN maxLen sIdx sDist rest s
    else
      let lenToUpd := sDist + ((e.dist_m : WithTop ℚ))
      if ((maxLen : WithTop ℚ) < lenToUpd) ∨ s.pl updN ≤ lenToUpd then
        relaxEdges apt endN maxLen sIdx sDist rest s
      else
        let s' := { s with pathLen := s.pathLen.set updN lenToUpd,
                           prevIdx := s.prevIdx.set updN (Prev.node sIdx) }
        if updN = endN then s'
        else relaxEdges apt endN maxLen sIdx sDist rest
               { s' with vecVisit := pushBackUnique s'.vecVisit updN }

/-- The outer loop of `Apt::ShortestPath`: while the visit list is non-empty
and the destination has no predecessor yet, pop the visit-list node with the
shortest known distance, mark it visited, and relax its edges.  The fuel is
chosen strictly larger than the possible number of iterations (each
iteration pops one entry and entries are pushed at most once per node plus
once per seed), so the `0` case is never reached on runs the C++ loop
performs; it is mapped to `none`. -/
def dijkLoop (apt : Apt) (endN : Nat) (maxLen : ℚ) :
    Nat → DijkState → Option DijkState
  | 0, _ => none
  | fuel + 1, s =>
    if s.vecVisit = [] ∨ s.pv endN ≠ Prev.unset then some s
    else
      let f := findShortest s.pathLen s.vecVisit
      let s1 := { s with visited := s.visited.set f.1 true,
                         vecVisit := s.vecVisit.erase f.1 }
      dijkLoop apt endN maxLen fuel
        (relaxEdges apt endN maxLen f.1 f.2 (apt.nodeD f.1).vecEdges s1)

/-- The path re-assembly loop of `Apt::ShortestPath`: starting at the
destination, push nodes and follow predecessors until a node marked
`ULONG_MAX-1` (a start node) is reached — that node is *not* pushed.  A
`unset` predecessor or exhausted fuel models the `.at` throw respectively
non-termination of the C++ loop: `none`. -/
def buildPath (s : DijkState) : Nat → Nat → List Nat → Option (List Nat)
  | 0, _, _ => none
  | fuel + 1, nIdx, acc =>
    match s.pv nIdx with
    | Prev.startMark => some acc
    | Prev.node p => buildPath s fuel p (acc ++ [nIdx])
    | Prev.unset => none

/-- The start nodes seeded by `Apt::ShortestPath`: all taxi nodes attached
to the runway endpoint if the start is a runway end, else the start node
itself. -/
def Apt.dijkSeeds (apt : Apt) (startN : Nat) (bStartIsRwy : Bool) : List Nat :=
  if bStartIsRwy then (apt.rwyD startN).vecTaxiNodes else [startN]

/-- Find a shortest path with a maximum length (`Apt::ShortestPath`),
additionally returning the final scratch state whose `pathLen` values the
caller `SnapToTaxiway` reads.  `some (l, s)` models the C++ function
returning list `l`; `none` models a run the C++ function does not complete
(exception or — never reached, see `dijkLoop`/`buildPath` — exhausted
fuel).  An out-of-range `startN` (`.at` throw in C++) is modelled by the
harmless seeding of a default node, see the comment on `Apt.nodeD`. -/
def Apt.shortestPathS (apt : Apt) (startN : Nat) (bStartIsRwy : Bool)
    (endN : Nat) (maxLen : ℚ) : Option (List Nat × DijkState) :=
  if ¬bStartIsRwy ∧ startN = endN then
    some ([], initDijkstra apt.vecTaxiNodes.length)
  else
    let seeds := apt.dijkSeeds startN bStartIsRwy
    let s1 := seedAll (initDijkstra apt.vecTaxiNodes.length) seeds
    match dijkLoop apt endN maxLen (apt.vecTaxiNodes.length + seeds.length + 1) s1 with
    | none => none
    | some s2 =>
      if s2.pv endN = Prev.unset then some ([], s2)
      else (buildPath s2 (apt.vecTaxiNodes.length + 1) endN []).map (fun l => (l, s2))

/-- The list of node indexes returned by `Apt::ShortestPath` (destination
towards start, reverse order). -/
def Apt.shortestPath (apt : Apt) (startN : Nat) (bStartIsRwy : Bool)
    (endN : Nat) (maxLen : ℚ) : Option (List Nat) :=
  (apt.shortestPathS startN bStartIsRwy endN maxLen).map Prod.fst

/-- Flight phases referenced by this module (`FPH_TAXI` set when snapping to
a taxiway, `FPH_TOUCH_DOWN` on the synthesized touch-down position;
`UNKNOWN` stands for any other/unset phase). -/
inductive FlightPhase where
  | UNKNOWN
  | TAXI
  | TOUCH_DOWN
deriving DecidableEq

/-- Modelled from the spec §3: the position's edge-association tag —
"unset, resolved to edge E, or no edge available" (`positionTy::edgeIdx`
with the `EDGE_UNKNOWN`/`EDGE_UNAVAIL` sentinels). -/
inductive EdgeAssoc where
  | unknown
  | unavail
  | onEdge (e : Nat)
deriving DecidableEq

/-- The members of `positionTy` used by this module: coordinates, altitude
(`none` = `NAN`), timestamp, heading (`none` = `NAN`), pitch/roll, flight
phase and the edge association.  Unit tags and the ground flag are carried
by no claim and are omitted. -/
structure Position where
  lat : ℚ
  lon : ℚ
  alt : Option ℚ
  ts : ℚ
  heading : Option ℚ
  pitch : ℚ
  roll : ℚ
  flightPhase : FlightPhase
  edgeIdx : EdgeAssoc
deriving DecidableEq

/-- A default-constructed position. -/
def Position.empty : Position :=
  ⟨0, 0, none, 0, none, 0, 0, FlightPhase.UNKNOWN, EdgeAssoc.unknown⟩

/-- Heading with `NAN` read as `0` (used where the C++ code reads the raw
double). -/
def Position.headingD (p : Position) : ℚ := p.heading.getD 0

/-- Is the position resolved to an edge? (`positionTy::HasTaxiEdge`,
modelled from the spec's edge-association tag). -/
def Position.hasTaxiEdge (p : Position) : Bool :=
  match p.edgeIdx with
  | EdgeAssoc.onEdge _ => true
  | _ => false

/-- The edge index a position is resolved to (`0` when unresolved; only read
behind `hasTaxiEdge`). -/
def Position.edgeIdxD (p : Position) : Nat :=
  match p.edgeIdx with
  | EdgeAssoc.onEdge e => e
  | _ => 0

/-- The best-match scratch data of `Apt::FindClosestEdge` (`bestEdge`,
`bestEdgeIdx`, `best_from/to_x/y`, `bestPrioDist`, `bestDist`; the `NAN`
initialization making the first candidate always win is modelled by
`Option.none`). -/
structure FCEBest where
  eIdx : Nat
  fromX : ℚ
  fromY : ℚ
  toX : ℚ
  toY : ℚ
  prioDist : ℚ
  dist : DistToLine
deriving DecidableEq

/-- One candidate step of the `Apt::FindClosestEdge` loop. -/
def fceStep (env : Env) (apt : Apt) (pos : Position) (headSearch : ℚ)
    (maxDist2 : ℚ) (angleTolerance : ℚ) (skipEdge : Option Nat)
    (best : Option FCEBest) (eIdx : Nat) : Option FCEBest :=
  if skipEdge = some eIdx then best
  else
    let e := apt.edgeD eIdx
    let fromN := e.startNodeByHeading env apt headSearch
    let toN := e.endNodeByHeading env apt headSearch
    let edgeAngle := e.getAngleByHead env headSearch
    let fromX := env.lon2Dist (fromN.lonD - pos.lon) pos.lat
    let fromY := env.lat2Dist (fromN.latD - pos.lat)
    let toX := env.lon2Dist (toN.lonD - pos.lon) pos.lat
    let toY := env.lat2Dist (toN.latD - pos.lat)
    let dist := env.distPointToLineSqr 0 0 fromX fromY toX toY
    if maxDist2 < dist.dist2 then best
    else
      let scndPrioAdd := 3 * env.artEdgeAngleExtDist +
        env.artEdgeAngleExtDist * env.artEdgeAngleExtDist
      let prioDist :=
        if angleTolerance < |env.headingDiff edgeAngle headSearch| then
          dist.dist2 + scndPrioAdd
        else dist.dist2
      if (match best with
          | some b => decide (b.prioDist ≤ prioDist)
          | none => false) then best
      else if maxDist2 < dist.beyond2 then best
      else some ⟨eIdx, fromX, fromY, toX, toY, prioDist, dist⟩

/-- Find the closest taxi edge matching a position and its heading
(`Apt::FindClosestEdge`): heading-window candidates via
`FindEdgesForHeading` with the wider of the two tolerances, then a linear
scan computing each candidate's squared distance in a local planar frame
around the position, with the second-priority penalty for candidates only
within the extended tolerance, rejecting candidates whose distance or base
overshoot exceeds the maximum.  Returns the found edge index and the base
point converted back to world coordinates (the values written through the
`basePt`/`pEdgeIdx` out-parameters). -/
def Apt.findClosestEdge (env : Env) (apt : Apt) (pos : Position)
    (maxDist : ℚ) (angleTolerance angleToleranceExt : ℚ)
    (skipEdge : Option Nat) : Option (Nat × ℚ × ℚ) :=
  let maxDist2 := maxDist * maxDist
  let headSearch := env.headingNormalize pos.headingD
  let lstEdges := apt.findEdgesForHeading headSearch
    (max angleTolerance angleToleranceExt) EdgeTy.UNKNOWN_WAY
  if lstEdges = [] then none
  else
    match lstEdges.foldl
        (fceStep env apt pos headSearch maxDist2 angleTolerance skipEdge) none with
    | none => none
    | some b =>
      let base := env.distResultToBaseLoc b.fromX b.fromY b.toX b.toY b.dist
      some (b.eIdx, pos.lat + env.dist2Lat base.2, pos.lon + env.dist2Lon base.1 pos.lat)

/-- The aircraft flight-model constants this module reads
(`LTAircraft::FlightModel`). -/
structure FlightModel where
  maxTaxiSpeed : ℚ
  vsiFinal : ℚ
  flapsDownSpeed : ℚ
  pitchFlare : ℚ
deriving DecidableEq

/-- The parts of `LTFlightData` that `SnapToTaxiway` touches: the position
deque, whether an aircraft object exists (`hasAc`), its current `to`
position, and the flight model (`fd.pAc->mdl` respectively the model found
for the aircraft type). -/
structure FlightData where
  posDeque : List Position
  hasAc : Bool
  acToPos : Position
  mdl : FlightModel
deriving DecidableEq

/-- The finite value of a path length (`pathLen` is a finite double whenever
the C++ code reads it after a successful search; `⊤` is mapped to `0`). -/
def qOf (w : WithTop ℚ) : ℚ := w.untop' 0

/-- Snap a position to the best matching taxi edge and possibly insert a
shortest taxi path before it (`Apt::SnapToTaxiway`).  `fd`'s deque position
`i` is the C++ `posIter`; the result is the returned `Bool`, the updated
flight data and the new iterator position.  `none` models a run the C++
function does not complete (impossible short of a corrupt graph, see
`Apt.shortestPathS`).  On no match the position is tagged `EDGE_UNAVAIL`;
on a runway match the function returns right after moving the position; on
a taxiway match the position is marked `FPH_TAXI` and, when the predecessor
position rests on a different edge, a found path of two or more nodes is
synthesized into positions (timestamped by interpolation over the path
length, with the special back-computation when coming off a runway) and
spliced in before position `i`. -/
def Apt.snapToTaxiway (env : Env) (apt : Apt) (fd : FlightData) (i : Nat) :
    Option (Bool × FlightData × Nat) :=
  let pos := fd.posDeque.getD i Position.empty
  match apt.findClosestEdge env pos env.fdSnapTaxiDist
      env.artEdgeAngleTolerance env.artEdgeAngleToleranceExt none with
  | none =>
    let pos1 := { pos with edgeIdx := EdgeAssoc.unavail }
    some (false, { fd with posDeque := fd.posDeque.set i pos1 }, i)
  | some (eIdx, nlat, nlon) =>
    let pos1 := { pos with lat := nlat, lon := nlon,
                           edgeIdx := EdgeAssoc.onEdge eIdx }
    if (apt.edgeD eIdx).type = EdgeTy.RUN_WAY then
      some (true, { fd with posDeque := fd.posDeque.set i pos1 }, i)
    else
      let pos2 := { pos1 with flightPhase := FlightPhase.TAXI }
      let fd1 := { fd with posDeque := fd.posDeque.set i pos2 }
      if ¬fd.hasAc ∧ i = 0 then some (true, fd1, i)
      else
        let prevPos := if i = 0 then fd.acToPos
                       else fd.posDeque.getD (i - 1) Position.empty
        if ¬prevPos.hasTaxiEdge then some (true, fd1, i)
        else if prevPos.edgeIdxD = eIdx then some (true, fd1, i)
        else
          let prevE := apt.edgeD prevPos.edgeIdxD
          let prevErelN :=
            if prevE.type = EdgeTy.RUN_WAY then
              prevE.startIdxByHeading env prevPos.headingD
            else prevE.endIdxByHeading env prevPos.headingD
          let currEstartN := (apt.edgeD eIdx).startIdxByHeading env pos2.headingD
          let maxLen := (pos.ts - prevPos.ts) * fd.mdl.maxTaxiSpeed * (3 / 2)
          match apt.shortestPathS prevErelN (prevE.type = EdgeTy.RUN_WAY)
              currEstartN maxLen with
          | none => none
          | some (vecPath, st) =>
            if 2 ≤ vecPath.length then
              let endNd := apt.nodeD (vecPath.headD 0)
              let pathLen := qOf (st.pl currEstartN) +
                env.distLatLon endNd.latD endNd.lonD pos2.lat pos2.lon
              let startTS :=
                if prevE.type = EdgeTy.RUN_WAY then
                  let taxiTime := pathLen / fd.mdl.maxTaxiSpeed
                  let st0 := pos.ts - taxiTime
                  if st0 < prevPos.ts + env.similarTsIntvl then
                    prevPos.ts + env.similarTsIntvl
                  else st0
                else
                  let startNd := apt.nodeD (vecPath.getLastD 0)
                  let prevToStartDist :=
                    env.distLatLon prevPos.lat prevPos.lon startNd.latD startNd.lonD
                  let speed := (prevToStartDist + pathLen) / (pos.ts - prevPos.ts)
                  prevPos.ts + prevToStartDist / speed
              let pathTime := pos.ts - startTS
              let insPositions := vecPath.reverse.map (fun n =>
                let nd := apt.nodeD n
                { lat := nd.latD, lon := nd.lonD, alt := none,
                  ts := startTS + pathTime * qOf (st.pl n) / pathLen,
                  heading := none, pitch := 0, roll := 0,
                  flightPhase := FlightPhase.TAXI,
                  edgeIdx := EdgeAssoc.unavail : Position })
              some (true,
                { fd1 with posDeque :=
                    fd1.posDeque.take i ++ insPositions ++ fd1.posDeque.drop i },
                i + insPositions.length)
            else some (true, fd1, i)

/-- The aircraft state read by `LTAptFindRwy`: flight model, last go-to
position and current speed in m/s. -/
structure Aircraft where
  mdl : FlightModel
  toPos : Position
  speed : ℚ
deriving DecidableEq

/-- The best-match scratch data of `LTAptFindRwy` (`bestRwy` angle,
`bestRwyEndPt`, `bestHeadingDiff` is carried separately, `bestArrivalTS`). -/
structure RwyBest where
  eIdx : Nat
  angle : ℚ
  ep : RwyEndPt
  hd : ℚ
  arrivalTS : ℚ
deriving DecidableEq

/-- The candidate runway edges `LTAptFindRwy` iterates: for each airport in
registry order, the runway-type edges matching the aircraft heading within
`ART_RWY_MAX_HEAD_DIFF` in index order (the nested loops flattened; an
airport without matches contributes nothing). -/
def rwyCandidates (env : Env) (registry : List Apt) (headSearch : ℚ) :
    List (Apt × Nat) :=
  registry.flatMap (fun apt =>
    (apt.findEdgesForHeading headSearch env.artRwyMaxHeadDiff EdgeTy.RUN_WAY).map
      (fun e => (apt, e)))

/-- The runway endpoint a candidate edge aims the aircraft at
(`bHeadInverted ? e.GetRwyEP_B(apt) : e.GetRwyEP_A(apt)` in
`LTAptFindRwy`, named so the case analysis below can refer to it). -/
def rwyEPOf (apt : Apt) (bHeadInverted : Bool) (eIdx : Nat) : RwyEndPt :=
  if bHeadInverted then apt.rwyD (apt.edgeD eIdx).b
  else apt.rwyD (apt.edgeD eIdx).a

/-- One candidate step of the `LTAptFindRwy` loop: pick the endpoint the
aircraft flies towards, skip endpoints of unknown altitude, reject when the
bearing deviation exceeds the best known deviation (strictly), reject when
the required descent rate falls outside the acceptable range, else take
over as the new best match. -/
def rwyStep (env : Env) (ac : Aircraft) (bHeadInverted : Bool)
    (speed vsiMin vsiMax : ℚ) (best : Option RwyBest × ℚ) (c : Apt × Nat) :
    Option RwyBest × ℚ :=
  let apt := c.1
  let e := apt.edgeD c.2
  let rwyEP := rwyEPOf apt bHeadInverted c.2
  match rwyEP.alt_m with
  | none => best
  | some alt =>
    let fromP := ac.toPos
    let bearing := env.coordAngle fromP.lat fromP.lon rwyEP.latD rwyEP.lonD
    let headingDiff := |env.headingDiff fromP.headingD bearing|
    if best.2 < headingDiff then best
    else
      let dist := env.coordDistance fromP.lat fromP.lon rwyEP.latD rwyEP.lonD
      let dts := dist / speed
      let vsi := (alt - fromP.alt.getD 0) / dts
      if vsi < vsiMin ∨ vsiMax < vsi then best
      else (some ⟨c.2, e.angle, rwyEP, headingDiff, fromP.ts + dts⟩, headingDiff)

/-- Return the best possible runway to auto-land at (`LTAptFindRwy`): VSI
range from the flight model, heading normalized into `[0,180)` remembering
the inversion, approach speed capped, then the candidate scan with the
best deviation tightening as matches are found.  The registry list stands
for `gmapApt` in its iteration order; `none` models the empty-`positionTy`
"not found" return.  The C++ code reads `from.alt_m()`/`from.heading()` as
raw doubles; an aircraft position with unknown altitude/heading (`NAN`) is
read as `0` here, see `Position.headingD`. -/
def ltAptFindRwy (env : Env) (registry : List Apt) (ac : Aircraft) :
    Option Position :=
  let vsiMin := ac.mdl.vsiFinal * env.artRwyMaxVsiF * env.msPerFtm
  let vsiMax := ac.mdl.vsiFinal / env.artRwyMaxVsiF * env.msPerFtm
  let fromP := ac.toPos
  let headSearch0 := env.headingNormalize fromP.headingD
  let bHeadInverted := 180 ≤ headSearch0
  let headSearch := if 180 ≤ headSearch0 then headSearch0 - 180 else headSearch0
  let speed := min ac.speed (ac.mdl.flapsDownSpeed * env.artApprSpeedF / env.ktPerMs)
  let r := (rwyCandidates env registry headSearch).foldl
    (rwyStep env ac bHeadInverted speed vsiMin vsiMax)
    (none, env.artRwyMaxHeadDiff)
  match r.1 with
  | none => none
  | some b =>
    some { lat := b.ep.latD, lon := b.ep.lonD, alt := b.ep.alt_m,
           ts := b.arrivalTS,
           heading := some (b.angle + (if bHeadInverted then 180 else 0)),
           pitch := ac.mdl.pitchFlare, roll := 0,
           flightPhase := FlightPhase.TOUCH_DOWN, edgeIdx := EdgeAssoc.unknown }

/-- Does edge `eIdx` exist in the graph and connect nodes `p` and `n`
(in either orientation)? -/
def connectsB (apt : Apt) (eIdx p n : Nat) : Bool :=
  decide (eIdx < apt.vecTaxiEdges.length) &&
  ((((apt.edgeD eIdx).a == p) && ((apt.edgeD eIdx).b == n)) ||
   (((apt.edgeD eIdx).b == p) && ((apt.edgeD eIdx).a == n)))

/-- Adjacency well-formedness of a graph: every edge index registered on a
taxi node exists and has that node as one of its endpoints.  The builder
establishes this (`AddTaxiEdge`/`SplitEdge` register exactly the endpoint
nodes). -/
def adjWF (apt : Apt) : Bool :=
  (List.range apt.vecTaxiNodes.length).all (fun i =>
    (apt.nodeD i).vecEdges.all (fun eIdx =>
      decide (eIdx < apt.vecTaxiEdges.length) &&
      (((apt.edgeD eIdx).a == i) || ((apt.edgeD eIdx).b == i))))

/-- Is `ns` a node chain realized by the edge list `es` (edge `es[k]`
joining `ns[k]` to `ns[k+1]`)? -/
def chainOK (apt : Apt) : List Nat → List Nat → Bool
  | [_], [] => true
  | n :: m :: r, e :: es => connectsB apt e n m && chainOK apt (m :: r) es
  | _, _ => false

/-- Summed length of an edge list. -/
def chainLen (apt : Apt) (es : List Nat) : ℚ :=
  (es.map (fun e => (apt.edgeD e).dist_m)).sum

/-- Invariant of the `Apt::ShortestPath` scratch state: the three per-node
arrays cover all nodes; a start-marked node has distance `0` and is one of
the seeded start nodes; a node with a real predecessor `p` has `p` already
finalized, its distance within the length budget, and its distance obtained
from `p`'s distance over an existing edge joining `p` to it. -/
structure DInv (apt : Apt) (maxLen : ℚ) (seeds : List Nat) (s : DijkState) : Prop where
  lenPL : s.pathLen.length = apt.vecTaxiNodes.length
  lenPV : s.prevIdx.length = apt.vecTaxiNodes.length
  lenVIS : s.visited.length = apt.vecTaxiNodes.length
  startProp : ∀ n, s.pv n = Prev.startMark → s.pl n = 0 ∧ n ∈ seeds
  nodeProp : ∀ n p, s.pv n = Prev.node p →
    s.vis p = true ∧ s.pl n ≤ (maxLen : WithTop ℚ) ∧
    ∃ eIdx, connectsB apt eIdx p n = true ∧
      s.pl n = s.pl p + ((apt.edgeD eIdx).dist_m : WithTop ℚ)

/-- The predecessor chain from node `n` down to a start-marked node `sN`:
`c` is the list of nodes pushed by the path re-assembly loop (`n` first,
`sN` excluded). -/
inductive PrevChain (s : DijkState) : Nat → List Nat → Nat → Prop where
  | stop : ∀ n, s.pv n = Prev.startMark → PrevChain s n [] n
  | step : ∀ n p c sN, s.pv n = Prev.node p → PrevChain s p c sN →
      PrevChain s n (n :: c) sN

/-- Deviation of two angles in `[0,180)` modulo `180°`: the distance on the
half-turn circle. -/
def headDiff180 (a h : ℚ) : ℚ := min |a - h| (180 - |a - h|)

/-- Move a taxi node onto new coordinates (the open-node move of
`Apt::JoinOpenTaxiEdges`, lines 632/633). -/
def Apt.setNodeCoords (apt : Apt) (i : Nat) (lat lon : ℚ) : Apt :=
  let n' := { apt.nodeD i with lat := some lat, lon := some lon }
  { apt with vecTaxiNodes := apt.vecTaxiNodes.set i n' }

/-- Register a taxi node on a runway endpoint (the runway branch of
`Apt::JoinOpenTaxiEdges`, line 623). -/
def Apt.pushRwyTaxiNode (apt : Apt) (r n : Nat) : Apt :=
  let r' := { apt.rwyD r with vecTaxiNodes := (apt.rwyD r).vecTaxiNodes ++ [n] }
  { apt with vecRwyEndPts := apt.vecRwyEndPts.set r r' }

/-- A single graph-builder mutation of an airport, as performed while
parsing and joining (spec §4.1): the operations of `Apt` that create or
modify nodes and edges, with the conditions their call sites establish
(`SplitEdge` is only invoked on the taxiway edge found by the join pass,
line 619/638; the node move and the runway-endpoint registration are the
primitive effects of `JoinOpenTaxiEdges`). -/
inductive BuildStep (env : Env) : Apt → Apt → Prop where
  | addNode : ∀ apt lat lon dc,
      BuildStep env apt (apt.addTaxiNode env lat lon dc).2
  | addNodeFixed : ∀ apt lat lon idx,
      BuildStep env apt (apt.addTaxiNodeFixed lat lon idx)
  | addEdge : ∀ apt n1 n2 dist eIdx apt',
      apt.addTaxiEdge env n1 n2 dist = AddEdgeResult.ok eIdx apt' →
      BuildStep env apt apt'
  | split : ∀ apt eIdx insNode apt',
      (apt.edgeD eIdx).type = EdgeTy.TAXI_WAY →
      apt.splitEdge env eIdx insNode = some apt' →
      BuildStep env apt apt'
  | addRwy : ∀ apt lat1 lon1 displaced1 id1 lat2 lon2 displaced2 id2,
      BuildStep env apt
        (apt.addRwyEnds env lat1 lon1 displaced1 id1 lat2 lon2 displaced2 id2)
  | recalc : ∀ apt eIdx,
      BuildStep env apt (apt.recalcTaxiEdge env eIdx)
  | moveNode : ∀ apt i lat lon,
      BuildStep env apt (apt.setNodeCoords i lat lon)
  | rwyRegister : ∀ apt r n,
      BuildStep env apt (apt.pushRwyTaxiNode r n)
  | sortEdges : ∀ apt,
      BuildStep env apt apt.sortTaxiEdges

/-- The typed-endpoint validity selected by an edge's type tag: runway
edges index the runway-endpoint store, taxiway edges the taxi-node store,
and no stored edge is of undefined type. -/
def TypedIdx (apt : Apt) : Prop :=
  ∀ e ∈ apt.vecTaxiEdges,
    (e.type = EdgeTy.RUN_WAY →
      e.a < apt.vecRwyEndPts.length ∧ e.b < apt.vecRwyEndPts.length) ∧
    (e.type = EdgeTy.TAXI_WAY →
      e.a < apt.vecTaxiNodes.length ∧ e.b < apt.vecTaxiNodes.length) ∧
    e.type ≠ EdgeTy.UNKNOWN_WAY

/-! ### Helper lemmas -/

theorem getD_set_self {α : Type} {l : List α} {i : Nat} (h : i < l.length)
    (v d : α) : (l.set i v).getD i d = v := by
  simp [List.getD_eq_getElem?_getD, List.getElem?_set_self h]

theorem getD_set_ne {α : Type} {l : List α} {i j : Nat} (h : i ≠ j)
    (v d : α) : (l.set i v).getD j d = l.getD j d := by
  simp [List.getD_eq_getElem?_getD, List.getElem?_set_ne h]

theorem getD_set_oob {α : Type} {l : List α} {i : Nat} (h : l.length ≤ i)
    (v : α) : l.set i v = l :=
  List.set_eq_of_length_le h

theorem getD_append_left {α : Type} {l l' : List α} {i : Nat}
    (h : i < l.length) (d : α) : (l ++ l').getD i d = l.getD i d := by
  simp [List.getD_eq_getElem?_getD, List.getElem?_append_left h]

theorem getD_append_right_self {α : Type} (l : List α) (v d : α) :
    (l ++ [v]).getD l.length d = v := by
  simp [List.getD_eq_getElem?_getD]

/-! ### C4: edge angle normalization -/

theorem normalize_range (e : TaxiEdge) (h0 : 0 ≤ e.angle) (h1 : e.angle < 360) :
    0 ≤ e.normalize.angle ∧ e.normalize.angle < 180 := by
  unfold TaxiEdge.normalize
  split <;> rename_i h
  · constructor
    · show 0 ≤ e.angle - 180
      linarith
    · show e.angle - 180 < 180
      linarith
  · exact ⟨h0, lt_of_not_le h⟩

theorem normalize_swap (e : TaxiEdge) (h : 180 ≤ e.angle) :
    e.normalize.a = e.b ∧ e.normalize.b = e.a := by
  unfold TaxiEdge.normalize
  simp [h]

/-- C4: after edge construction (`TaxiEdge` constructor), endpoint
replacement (`SetEndNode`) and recomputation (`RecalcTaxiEdge`) — each of
which feeds a compass heading in `[0°,360°)` through `Normalize` — the
stored angle satisfies `0° ≤ angle < 180°`, the node indexes being swapped
exactly when the incoming angle was `≥ 180°`. -/
theorem edge_angle_normalized :
    (∀ (t : EdgeTy) (a b : Nat) (ang d : ℚ), 0 ≤ ang → ang < 360 →
      (0 ≤ (TaxiEdge.make t a b ang d).angle ∧ (TaxiEdge.make t a b ang d).angle < 180) ∧
      (180 ≤ ang → (TaxiEdge.make t a b ang d).a = b ∧ (TaxiEdge.make t a b ang d).b = a) ∧
      (ang < 180 → (TaxiEdge.make t a b ang d).a = a ∧ (TaxiEdge.make t a b ang d).b = b)) ∧
    (∀ (e : TaxiEdge) (b : Nat) (ang d : ℚ), 0 ≤ ang → ang < 360 →
      0 ≤ (e.setEndNode b ang d).angle ∧ (e.setEndNode b ang d).angle < 180) ∧
    (∀ (env : Env) (apt : Apt) (eIdx : Nat),
      (∀ la lo la' lo', 0 ≤ env.coordAngle la lo la' lo' ∧ env.coordAngle la lo la' lo' < 360) →
      eIdx < apt.vecTaxiEdges.length →
      0 ≤ ((apt.recalcTaxiEdge env eIdx).edgeD eIdx).angle ∧
      ((apt.recalcTaxiEdge env eIdx).edgeD eIdx).angle < 180) := by
  refine ⟨?_, ?_, ?_⟩
  · intro t a b ang d h0 h1
    refine ⟨normalize_range _ h0 h1, ?_, ?_⟩
    · intro h
      exact normalize_swap _ h
    · intro h
      unfold TaxiEdge.make TaxiEdge.normalize
      simp [not_le.mpr h]
  · intro e b ang d h0 h1
    exact normalize_range _ h0 h1
  · intro env apt eIdx hca hlt
    unfold Apt.recalcTaxiEdge Apt.edgeD
    rw [getD_set_self]
    · exact normalize_range _ (hca _ _ _ _).1 (hca _ _ _ _).2
    · simpa using hlt

attribute [local semireducible] Rat.add Rat.sub Rat.mul Rat.inv

/-- Witness for `edge_angle_normalized` at concrete inputs. -/
theorem edge_angle_normalized_witness :
    ((0:ℚ) ≤ (TaxiEdge.make EdgeTy.TAXI_WAY 3 7 270 5).angle ∧
      (TaxiEdge.make EdgeTy.TAXI_WAY 3 7 270 5).angle < 180) ∧
    ((180:ℚ) ≤ 270 → (TaxiEdge.make EdgeTy.TAXI_WAY 3 7 270 5).a = 7 ∧
      (TaxiEdge.make EdgeTy.TAXI_WAY 3 7 270 5).b = 3) ∧
    ((270:ℚ) < 180 → (TaxiEdge.make EdgeTy.TAXI_WAY 3 7 270 5).a = 3 ∧
      (TaxiEdge.make EdgeTy.TAXI_WAY 3 7 270 5).b = 7) :=
  edge_angle_normalized.1 EdgeTy.TAXI_WAY 3 7 270 5 (by norm_num) (by norm_num)

/-! ### C9: AddTaxiEdge error handling -/

theorem pushNodeEdge_vecTaxiEdges (apt : Apt) (n e : Nat) :
    (apt.pushNodeEdge n e).vecTaxiEdges = apt.vecTaxiEdges := rfl

theorem pushNodeEdge_length (apt : Apt) (n e : Nat) :
    (apt.pushNodeEdge n e).vecTaxiNodes.length = apt.vecTaxiNodes.length := by
  simp [Apt.pushNodeEdge]

theorem pushNodeEdge_nodeD_self (apt : Apt) (n e : Nat)
    (h : n < apt.vecTaxiNodes.length) :
    (apt.pushNodeEdge n e).nodeD n =
      { apt.nodeD n with vecEdges := (apt.nodeD n).vecEdges ++ [e] } := by
  simp only [Apt.pushNodeEdge, Apt.nodeD]
  rw [getD_set_self h]

theorem pushNodeEdge_nodeD_ne (apt : Apt) (n e m : Nat) (h : n ≠ m) :
    (apt.pushNodeEdge n e).nodeD m = apt.nodeD m := by
  simp only [Apt.pushNodeEdge, Apt.nodeD]
  rw [getD_set_ne h]

/-- C9: for every graph state and every pair of node indexes (of nodes of the
graph), `AddTaxiEdge` fails — returning the failure sentinel with the
airport, and hence both incident-edge lists, unchanged — exactly when either
referenced node lacks valid geographic coordinates; otherwise it returns the
new edge's index, appends the edge (type `TAXI_WAY`, computed angle,
supplied-or-computed distance, constructor-normalized) and registers the new
index on both endpoint nodes. -/
theorem addTaxiEdge_spec (env : Env) (apt : Apt) (n1 n2 : Nat) (dist : Option ℚ)
    (h1 : n1 < apt.vecTaxiNodes.length) (h2 : n2 < apt.vecTaxiNodes.length) :
    (¬((apt.nodeD n1).hasGeoCoords = true ∧ (apt.nodeD n2).hasGeoCoords = true) →
      apt.addTaxiEdge env n1 n2 dist = AddEdgeResult.failed apt) ∧
    (((apt.nodeD n1).hasGeoCoords = true ∧ (apt.nodeD n2).hasGeoCoords = true) →
      ∃ apt', apt.addTaxiEdge env n1 n2 dist =
          AddEdgeResult.ok apt.vecTaxiEdges.length apt' ∧
        apt'.vecTaxiEdges = apt.vecTaxiEdges ++
          [TaxiEdge.make EdgeTy.TAXI_WAY n1 n2
            (env.coordAngle (apt.nodeD n1).latD (apt.nodeD n1).lonD
              (apt.nodeD n2).latD (apt.nodeD n2).lonD)
            (match dist with
             | some d => d
             | none => env.distLatLon (apt.nodeD n1).latD (apt.nodeD n1).lonD
                         (apt.nodeD n2).latD (apt.nodeD n2).lonD)] ∧
        (∀ m, m ≠ n1 → m ≠ n2 → apt'.nodeD m = apt.nodeD m) ∧
        apt.vecTaxiEdges.length ∈ (apt'.nodeD n1).vecEdges ∧
        apt.vecTaxiEdges.length ∈ (apt'.nodeD n2).vecEdges ∧
        (n1 ≠ n2 →
          (apt'.nodeD n1).vecEdges = (apt.nodeD n1).vecEdges ++ [apt.vecTaxiEdges.length] ∧
          (apt'.nodeD n2).vecEdges = (apt.nodeD n2).vecEdges ++ [apt.vecTaxiEdges.length])) := by
  constructor
  · intro h
    unfold Apt.addTaxiEdge
    rw [if_pos ⟨h1, h2⟩, if_neg]
    intro hcontra
    exact h (by simpa [Bool.and_eq_true] using hcontra)
  · intro h
    have hb : ((apt.nodeD n1).hasGeoCoords && (apt.nodeD n2).hasGeoCoords) = true := by
      simp [Bool.and_eq_true, h.1, h.2]
    refine ⟨((({ apt with vecTaxiEdges := apt.vecTaxiEdges ++
        [TaxiEdge.make EdgeTy.TAXI_WAY n1 n2
          (env.coordAngle (apt.nodeD n1).latD (apt.nodeD n1).lonD
            (apt.nodeD n2).latD (apt.nodeD n2).lonD)
          (match dist with
           | some d => d
           | none => env.distLatLon (apt.nodeD n1).latD (apt.nodeD n1).lonD
                       (apt.nodeD n2).latD (apt.nodeD n2).lonD)] } : Apt).pushNodeEdge n1
        apt.vecTaxiEdges.length).pushNodeEdge n2 apt.vecTaxiEdges.length),
      ?_, ?_, ?_, ?_, ?_, ?_⟩
    · unfold Apt.addTaxiEdge
      rw [if_pos ⟨h1, h2⟩, if_pos hb]
      simp only [List.length_append, List.length_cons, List.length_nil, Nat.add_sub_cancel]
    · rw [pushNodeEdge_vecTaxiEdges, pushNodeEdge_vecTaxiEdges]
    · intro m hm1 hm2
      rw [pushNodeEdge_nodeD_ne _ _ _ _ (fun hc => hm2 hc.symm),
          pushNodeEdge_nodeD_ne _ _ _ _ (fun hc => hm1 hc.symm)]
      rfl
    · by_cases hne : n1 = n2
      · subst hne
        rw [pushNodeEdge_nodeD_self]
        · simp
        · rw [pushNodeEdge_length]
          exact h1
      · rw [pushNodeEdge_nodeD_ne _ _ _ _ (fun hc => hne hc.symm),
            pushNodeEdge_nodeD_self]
        · simp
        · exact h1
    · rw [pushNodeEdge_nodeD_self]
      · simp
      · rw [pushNodeEdge_length]
        exact h2
    · intro hne
      constructor
      · rw [pushNodeEdge_nodeD_ne _ _ _ _ (fun hc => hne hc.symm),
            pushNodeEdge_nodeD_self]
        · rfl
        · exact h1
      · rw [pushNodeEdge_nodeD_self, pushNodeEdge_nodeD_ne _ _ _ _ hne]
        · rfl
        · rw [pushNodeEdge_length]
          exact h2

/-! ### A concrete environment for witnesses and counterexamples -/

/-- Exact planar point-to-segment distance data: perpendicular foot of the
point on the line, squared distance to it, and squared overshoot beyond the
segment. -/
def planarDistPointToLineSqr (px py x1 y1 x2 y2 : ℚ) : DistToLine :=
  let dx := x2 - x1
  let dy := y2 - y1
  let len2 := dx * dx + dy * dy
  let t := ((px - x1) * dx + (py - y1) * dy) / len2
  let bx := x1 + t * dx
  let by_ := y1 + t * dy
  { dist2 := (px - bx) * (px - bx) + (py - by_) * (py - by_),
    beyond2 := if t < 0 then t * t * len2
               else if 1 < t then (t - 1) * (t - 1) * len2 else 0,
    baseT := t }

/-- A concrete geometry/constants environment used by the witnesses: the
identity lat/lon-to-meter conversions of a flat 1°=1m world, Manhattan-style
distances, simple signed heading difference, and small round constants. -/
def wEnv : Env :=
  { coordAngle := fun _ _ _ _ => 90,
    coordDistance := fun la lo la' lo' => |la' - la| + |lo' - lo|,
    distLatLon := fun la lo la' lo' => |la' - la| + |lo' - lo|,
    dist2Lat := fun d => d,
    dist2Lon := fun d _ => d,
    lat2Dist := fun d => d,
    lon2Dist := fun d _ => d,
    headingNormalize := fun h => h,
    headingDiff := fun a b => a - b,
    distPointToLineSqr := planarDistPointToLineSqr,
    distResultToBaseLoc := fun x1 y1 x2 y2 d =>
      (x1 + d.baseT * (x2 - x1), y1 + d.baseT * (y2 - y1)),
    vecBetween := fun la lo la' lo' => (90, |la' - la| + |lo' - lo|),
    vecAdd := fun la lo _ d => (la, lo + d),
    maxSimilarNodeDist := 1,
    artEdgeAngleExtDist := 1,
    artRwyTdPointF := 0,
    artRwyMaxHeadDiff := 45,
    artRwyMaxVsiF := 2,
    msPerFtm := 1,
    artApprSpeedF := 1,
    ktPerMs := 1,
    artEdgeAngleTolerance := 30,
    artEdgeAngleToleranceExt := 80,
    fdSnapTaxiDist := 10,
    similarTsIntvl := 1 }

/-- Concrete airport for the `AddTaxiEdge` witness: nodes `0`/`1` with
coordinates, node `2` a placeholder without. -/
def wApt9 : Apt :=
  { id := "", bounds := ⟨none, none, none, none⟩, alt_m := none,
    vecTaxiNodes := [⟨some 0, some 0, []⟩, ⟨some 1, some 1, []⟩, TaxiNode.empty],
    vecRwyEndPts := [], vecTaxiEdges := [], vecTaxiEdgesIdxHead := [] }

/-- Witness for `addTaxiEdge_spec`: adding an edge towards the
coordinate-less node `2` fails with the airport unchanged. -/
theorem addTaxiEdge_spec_witness :
    wApt9.addTaxiEdge wEnv 0 2 none = AddEdgeResult.failed wApt9 :=
  (addTaxiEdge_spec wEnv wApt9 0 2 none (by decide) (by decide)).1 (by decide)

/-! ### C6: AddTaxiNode idempotence -/

theorem find?_congr_mem {α : Type} {p q : α → Bool} :
    ∀ {l : List α}, (∀ x ∈ l, p x = q x) → l.find? p = l.find? q
  | [], _ => rfl
  | x :: xs, h => by
    rw [List.find?_cons, List.find?_cons, h x (List.mem_cons_self x xs)]
    cases q x
    · exact find?_congr_mem (fun y hy => h y (List.mem_cons_of_mem x hy))
    · rfl

theorem similarNodeTest_append_left (env : Env) (nodes : List TaxiNode)
    (x : TaxiNode) (lat lon : ℚ) (dc : Option Nat) (i : Nat)
    (h : i < nodes.length) :
    similarNodeTest env (nodes ++ [x]) lat lon dc i =
      similarNodeTest env nodes lat lon dc i := by
  unfold similarNodeTest
  rw [getD_append_left h]

theorem similarNodeTest_new (env : Env) (nodes : List TaxiNode) (lat lon : ℚ)
    (hLat : 0 ≤ env.dist2Lat env.maxSimilarNodeDist)
    (hLon : 0 ≤ env.dist2Lon env.maxSimilarNodeDist lat) :
    similarNodeTest env (nodes ++ [⟨some lat, some lon, []⟩]) lat lon none
      nodes.length = true := by
  unfold similarNodeTest
  rw [getD_append_right_self]
  simp only [Bool.and_eq_true, decide_eq_true_eq]
  refine ⟨by simp, ?_, ?_⟩
  · simpa using hLat
  · simpa using hLon

/-- C6 (amended): `AddTaxiNode` is idempotent under a repeated call with the
*identical* coordinates (given nonnegative conversion thresholds): the second
call finds an existing node within the merge distance — the first match in
store order, which is the node the first call returned — and returns the same
index with the airport unchanged, instead of appending. -/
theorem addTaxiNode_idempotent (env : Env) (apt : Apt) (lat lon : ℚ)
    (hLat : 0 ≤ env.dist2Lat env.maxSimilarNodeDist)
    (hLon : 0 ≤ env.dist2Lon env.maxSimilarNodeDist lat) :
    (apt.addTaxiNode env lat lon none).2.addTaxiNode env lat lon none =
      apt.addTaxiNode env lat lon none := by
  rcases hsim : apt.getSimilarTaxiNode env lat lon none with _ | i
  · -- no similar node: the first call appends, the second finds the new node
    have hfst : apt.addTaxiNode env lat lon none =
        (apt.vecTaxiNodes.length,
         { apt with bounds := bboxEnlargePos apt.bounds lat lon,
                    vecTaxiNodes := apt.vecTaxiNodes ++ [⟨some lat, some lon, []⟩] }) := by
      unfold Apt.addTaxiNode
      rw [hsim]
      simp
    have hsim2 : Apt.getSimilarTaxiNode env
        { apt with bounds := bboxEnlargePos apt.bounds lat lon,
                   vecTaxiNodes := apt.vecTaxiNodes ++ [⟨some lat, some lon, []⟩] }
        lat lon none = some apt.vecTaxiNodes.length := by
      unfold Apt.getSimilarTaxiNode
      show (List.range (apt.vecTaxiNodes ++ [(⟨some lat, some lon, []⟩ : TaxiNode)]).length).find? _ = _
      rw [show (apt.vecTaxiNodes ++ [(⟨some lat, some lon, []⟩ : TaxiNode)]).length =
            apt.vecTaxiNodes.length + 1 by simp,
          List.range_succ, List.find?_append]
      have hleft : (List.range apt.vecTaxiNodes.length).find?
          (similarNodeTest env (apt.vecTaxiNodes ++ [⟨some lat, some lon, []⟩]) lat lon none) =
          none := by
        rw [find?_congr_mem (q := similarNodeTest env apt.vecTaxiNodes lat lon none)]
        · exact hsim
        · intro x hx
          exact similarNodeTest_append_left env apt.vecTaxiNodes _ lat lon none x
            (List.mem_range.mp hx)
      rw [hleft, List.find?_cons, similarNodeTest_new env apt.vecTaxiNodes lat lon hLat hLon]
      rfl
    rw [hfst]
    show Apt.addTaxiNode env _ lat lon none = _
    unfold Apt.addTaxiNode
    rw [hsim2]
  · -- a similar node exists: both calls return it, unchanged state
    have hfst : apt.addTaxiNode env lat lon none = (i, apt) := by
      unfold Apt.addTaxiNode
      rw [hsim]
    rw [hfst]
    show Apt.addTaxiNode env apt lat lon none = (i, apt)
    exact hfst

/-! ### C6 witness and counterexample -/

/-- Witness for `addTaxiNode_idempotent` at a concrete airport and
coordinates. -/
theorem addTaxiNode_idempotent_witness :
    (wApt9.addTaxiNode wEnv 5 6 none).2.addTaxiNode wEnv 5 6 none =
      wApt9.addTaxiNode wEnv 5 6 none :=
  addTaxiNode_idempotent wEnv wApt9 5 6 (by decide) (by decide)

/-- Concrete airport for the C6 counterexample: a single node at the
origin. -/
def cApt6 : Apt :=
  { id := "", bounds := ⟨none, none, none, none⟩, alt_m := none,
    vecTaxiNodes := [⟨some 0, some 0, []⟩],
    vecRwyEndPts := [], vecTaxiEdges := [], vecTaxiEdgesIdxHead := [] }

/-- C6 counterexample: with merge threshold `1` (in converted units), a
first call at latitude `3/2` appends node `1`, but a second call at latitude
`4/5` — differing from the first call by only `7/10`, i.e. sub-threshold —
returns node `0` (the first match in store order), not the same index `1`:
idempotence fails for sub-threshold-different coordinates. -/
theorem addTaxiNode_subthreshold_cex :
    (cApt6.addTaxiNode wEnv (3/2) 0 none).1 = 1 ∧
    ((cApt6.addTaxiNode wEnv (3/2) 0 none).2.addTaxiNode wEnv (4/5) 0 none).1 = 0 ∧
    |(3/2 : ℚ) - 4/5| ≤ wEnv.dist2Lat wEnv.maxSimilarNodeDist ∧
    (1 : Nat) ≠ 0 := by
  refine ⟨by decide, by decide, by decide, by decide⟩

/-! ### C10: edge type tags and the node stores -/

theorem normalize_type (e : TaxiEdge) : e.normalize.type = e.type := by
  unfold TaxiEdge.normalize
  split <;> rfl

theorem normalize_ab (e : TaxiEdge) :
    (e.normalize.a = e.a ∧ e.normalize.b = e.b) ∨
    (e.normalize.a = e.b ∧ e.normalize.b = e.a) := by
  unfold TaxiEdge.normalize
  split
  · exact Or.inr ⟨rfl, rfl⟩
  · exact Or.inl ⟨rfl, rfl⟩

theorem make_type (t : EdgeTy) (a b : Nat) (ang d : ℚ) :
    (TaxiEdge.make t a b ang d).type = t :=
  normalize_type _

theorem make_ab (t : EdgeTy) (a b : Nat) (ang d : ℚ) :
    ((TaxiEdge.make t a b ang d).a = a ∧ (TaxiEdge.make t a b ang d).b = b) ∨
    ((TaxiEdge.make t a b ang d).a = b ∧ (TaxiEdge.make t a b ang d).b = a) :=
  normalize_ab _

theorem setEndNode_type (e : TaxiEdge) (b : Nat) (ang d : ℚ) :
    (e.setEndNode b ang d).type = e.type :=
  normalize_type _

theorem setEndNode_ab (e : TaxiEdge) (b : Nat) (ang d : ℚ) :
    ((e.setEndNode b ang d).a = e.a ∧ (e.setEndNode b ang d).b = b) ∨
    ((e.setEndNode b ang d).a = b ∧ (e.setEndNode b ang d).b = e.a) :=
  normalize_ab _

/-- Inversion of a successful `addTaxiEdge`: the in-range and coordinate
checks passed and the result is the literal construction. -/
theorem addTaxiEdge_ok_inv (env : Env) (apt : Apt) (n1 n2 : Nat)
    (dist : Option ℚ) (eIdx : Nat) (apt' : Apt)
    (h : apt.addTaxiEdge env n1 n2 dist = AddEdgeResult.ok eIdx apt') :
    n1 < apt.vecTaxiNodes.length ∧ n2 < apt.vecTaxiNodes.length ∧
    apt'.vecTaxiNodes.length = apt.vecTaxiNodes.length ∧
    apt'.vecRwyEndPts = apt.vecRwyEndPts ∧
    ∃ ang d, apt'.vecTaxiEdges =
      apt.vecTaxiEdges ++ [TaxiEdge.make EdgeTy.TAXI_WAY n1 n2 ang d] := by
  unfold Apt.addTaxiEdge at h
  split at h
  · rename_i hin
    split at h <;> dsimp only at h <;> split at h <;> first
      | (rw [AddEdgeResult.ok.injEq] at h
         refine ⟨hin.1, hin.2, ?_, ?_, ?_⟩
         · rw [← h.2, pushNodeEdge_length, pushNodeEdge_length]
         · rw [← h.2]
           rfl
         · rw [← h.2, pushNodeEdge_vecTaxiEdges, pushNodeEdge_vecTaxiEdges]
           exact ⟨_, _, rfl⟩)
      | exact absurd h (by simp)
  · exact absurd h (by simp)

theorem edgeD_mem (apt : Apt) {i : Nat} (h : i < apt.vecTaxiEdges.length) :
    apt.edgeD i ∈ apt.vecTaxiEdges := by
  unfold Apt.edgeD
  rw [List.getD_eq_getElem?_getD, List.getElem?_eq_getElem h]
  exact List.getElem_mem h

theorem typedIdx_addTaxiEdge (env : Env) (apt : Apt) (n1 n2 : Nat)
    (dist : Option ℚ) (eIdx : Nat) (apt' : Apt)
    (h : apt.addTaxiEdge env n1 n2 dist = AddEdgeResult.ok eIdx apt')
    (ht : TypedIdx apt) : TypedIdx apt' := by
  obtain ⟨h1, h2, hnl, hrwy, ang, d, hedges⟩ := addTaxiEdge_ok_inv env apt n1 n2 dist eIdx apt' h
  intro e he
  rw [hedges] at he
  rcases List.mem_append.mp he with he | he
  · obtain ⟨hr, ht', hu⟩ := ht e he
    refine ⟨fun hh => ?_, fun hh => ?_, hu⟩
    · rw [hrwy]
      exact hr hh
    · rw [hnl]
      exact ht' hh
  · rw [List.mem_singleton] at he
    subst he
    refine ⟨fun hh => ?_, fun _ => ?_, ?_⟩
    · rw [make_type] at hh
      exact absurd hh (by simp)
    · rw [hnl]
      rcases make_ab EdgeTy.TAXI_WAY n1 n2 ang d with ⟨ha, hb⟩ | ⟨ha, hb⟩ <;>
        rw [ha, hb] <;> exact ⟨by assumption, by assumption⟩
    · rw [make_type]
      simp
  
theorem addTaxiEdge_failed_inv (env : Env) (apt apt2 : Apt) (n1 n2 : Nat)
    (dist : Option ℚ)
    (h : apt.addTaxiEdge env n1 n2 dist = AddEdgeResult.failed apt2) :
    apt2 = apt := by
  unfold Apt.addTaxiEdge at h
  split at h
  · split at h <;> dsimp only at h <;> split at h
    · exact absurd h (by simp)
    · rw [AddEdgeResult.failed.injEq] at h
      exact h.symm
    · exact absurd h (by simp)
    · rw [AddEdgeResult.failed.injEq] at h
      exact h.symm
  · exact absurd h (by simp)

theorem typedIdx_of_eq (apt apt' : Apt)
    (hE : apt'.vecTaxiEdges = apt.vecTaxiEdges)
    (hN : apt.vecTaxiNodes.length ≤ apt'.vecTaxiNodes.length)
    (hR : apt.vecRwyEndPts.length ≤ apt'.vecRwyEndPts.length)
    (ht : TypedIdx apt) : TypedIdx apt' := by
  intro e he
  rw [hE] at he
  obtain ⟨hr, htx, hu⟩ := ht e he
  exact ⟨fun hh => ⟨lt_of_lt_of_le (hr hh).1 hR, lt_of_lt_of_le (hr hh).2 hR⟩,
         fun hh => ⟨lt_of_lt_of_le (htx hh).1 hN, lt_of_lt_of_le (htx hh).2 hN⟩, hu⟩

theorem typedIdx_set_edge (apt : Apt) (eIdx : Nat) (e' : TaxiEdge)
    (hty : e'.type = EdgeTy.TAXI_WAY)
    (ha : e'.a < apt.vecTaxiNodes.length) (hb : e'.b < apt.vecTaxiNodes.length)
    (ht : TypedIdx apt) :
    TypedIdx { apt with vecTaxiEdges := apt.vecTaxiEdges.set eIdx e' } := by
  intro e he
  rcases List.mem_or_eq_of_mem_set he with he | rfl
  · exact ht e he
  · exact ⟨fun hh => absurd hh (by rw [hty]; simp),
           fun _ => ⟨ha, hb⟩, by rw [hty]; simp⟩

theorem typedIdx_addTaxiNode (env : Env) (apt : Apt) (lat lon : ℚ)
    (dc : Option Nat) (ht : TypedIdx apt) :
    TypedIdx (apt.addTaxiNode env lat lon dc).2 := by
  unfold Apt.addTaxiNode
  rcases hs : apt.getSimilarTaxiNode env lat lon dc with _ | i
  · exact typedIdx_of_eq apt _ rfl (by simp) (by simp) ht
  · exact ht

theorem typedIdx_addTaxiNodeFixed (apt : Apt) (lat lon : ℚ) (idx : Nat)
    (ht : TypedIdx apt) : TypedIdx (apt.addTaxiNodeFixed lat lon idx) := by
  unfold Apt.addTaxiNodeFixed
  split
  · exact typedIdx_of_eq apt _ rfl (by simp) (by simp) ht
  · refine typedIdx_of_eq apt _ rfl ?_ (by simp) ht
    show apt.vecTaxiNodes.length ≤ _
    rw [List.length_set]
    split
    · simp
    · exact le_refl _

theorem typedIdx_splitEdge (env : Env) (apt : Apt) (eIdx insNode : Nat)
    (apt' : Apt) (htype : (apt.edgeD eIdx).type = EdgeTy.TAXI_WAY)
    (h : apt.splitEdge env eIdx insNode = some apt')
    (ht : TypedIdx apt) : TypedIdx apt' := by
  unfold Apt.splitEdge at h
  split at h
  · rename_i hlt
    dsimp only at h
    split at h
    · rw [Option.some.injEq] at h
      subst h
      exact ht
    · split at h
      · rename_i hne hins
        have habsplit := setEndNode_ab (apt.edgeD eIdx) insNode
          (env.coordAngle ((apt.edgeD eIdx).getA apt).latD ((apt.edgeD eIdx).getA apt).lonD
            (apt.nodeD insNode).latD (apt.nodeD insNode).lonD)
          (env.distLatLon ((apt.edgeD eIdx).getA apt).latD ((apt.edgeD eIdx).getA apt).lonD
            (apt.nodeD insNode).latD (apt.nodeD insNode).lonD)
        have hbounds := (ht (apt.edgeD eIdx) (edgeD_mem apt hlt)).2.1 htype
        have ht1 := typedIdx_set_edge apt eIdx
          ((apt.edgeD eIdx).setEndNode insNode
            (env.coordAngle ((apt.edgeD eIdx).getA apt).latD ((apt.edgeD eIdx).getA apt).lonD
              (apt.nodeD insNode).latD (apt.nodeD insNode).lonD)
            (env.distLatLon ((apt.edgeD eIdx).getA apt).latD ((apt.edgeD eIdx).getA apt).lonD
              (apt.nodeD insNode).latD (apt.nodeD insNode).lonD))
          (by rw [setEndNode_type]; exact htype)
          (by rcases habsplit with ⟨ha, _⟩ | ⟨ha, _⟩ <;> rw [ha]
              · exact hbounds.1
              · exact hins)
          (by rcases habsplit with ⟨_, hb⟩ | ⟨_, hb⟩ <;> rw [hb]
              · exact hins
              · exact hbounds.1)
          ht
        split at h
        · exact absurd h (by simp)
        · rename_i apt4 heq
          rw [Option.some.injEq] at h
          subst h
          rw [addTaxiEdge_failed_inv env _ apt4 insNode (apt.edgeD eIdx).b none heq]
          refine typedIdx_of_eq _ _ ?_ ?_ ?_ ht1
          · rfl
          · dsimp only
            rw [List.length_set, pushNodeEdge_length]
          · exact le_refl _
        · rename_i i4 apt4 heq
          rw [Option.some.injEq] at h
          subst h
          refine typedIdx_addTaxiEdge env _ insNode (apt.edgeD eIdx).b none i4 apt4 heq ?_
          refine typedIdx_of_eq _ _ ?_ ?_ ?_ ht1
          · rfl
          · dsimp only
            rw [List.length_set, pushNodeEdge_length]
          · exact le_refl _
      · exact absurd h (by simp)
  · exact absurd h (by simp)

theorem make_ab_lt (t : EdgeTy) (a b N : Nat) (ang d : ℚ)
    (hA : a < N) (hB : b < N) :
    (TaxiEdge.make t a b ang d).a < N ∧ (TaxiEdge.make t a b ang d).b < N := by
  rcases make_ab t a b ang d with ⟨h1, h2⟩ | ⟨h1, h2⟩ <;> rw [h1, h2] <;>
    exact ⟨by assumption, by assumption⟩

theorem typedIdx_addRwyAux (apt : Apt) (b' : BBox) (eps : List RwyEndPt)
    (e' : TaxiEdge) (heps : apt.vecRwyEndPts.length ≤ eps.length)
    (hty : e'.type = EdgeTy.RUN_WAY)
    (ha : e'.a < eps.length) (hb : e'.b < eps.length) (ht : TypedIdx apt) :
    TypedIdx { apt with bounds := b', vecRwyEndPts := eps,
                        vecTaxiEdges := apt.vecTaxiEdges ++ [e'] } := by
  intro e he
  rcases List.mem_append.mp he with he | he
  · obtain ⟨hr, htx, hu⟩ := ht e he
    exact ⟨fun hh => ⟨lt_of_lt_of_le (hr hh).1 heps, lt_of_lt_of_le (hr hh).2 heps⟩,
           htx, hu⟩
  · rw [List.mem_singleton] at he
    subst he
    exact ⟨fun _ => ⟨ha, hb⟩, fun hh => absurd hh (by rw [hty]; simp),
           by rw [hty]; simp⟩

theorem typedIdx_addRwyEnds (env : Env) (apt : Apt)
    (lat1 lon1 d1 : ℚ) (id1 : String) (lat2 lon2 d2 : ℚ) (id2 : String)
    (ht : TypedIdx apt) :
    TypedIdx (apt.addRwyEnds env lat1 lon1 d1 id1 lat2 lon2 d2 id2) := by
  unfold Apt.addRwyEnds
  refine typedIdx_addRwyAux apt _ _ _ (by simp) (make_type _ _ _ _ _) ?_ ?_ ht
  · refine (make_ab_lt _ _ _ _ _ _ ?_ ?_).1 <;> simp
  · refine (make_ab_lt _ _ _ _ _ _ ?_ ?_).2 <;> simp

theorem typedIdx_recalc (env : Env) (apt : Apt) (eIdx : Nat)
    (ht : TypedIdx apt) : TypedIdx (apt.recalcTaxiEdge env eIdx) := by
  by_cases hlt : eIdx < apt.vecTaxiEdges.length
  · intro e he
    unfold Apt.recalcTaxiEdge at he
    dsimp only at he
    rcases List.mem_or_eq_of_mem_set he with he | rfl
    · exact ht e he
    · obtain ⟨hr, htx, hu⟩ := ht (apt.edgeD eIdx) (edgeD_mem apt hlt)
      have hab := normalize_ab { apt.edgeD eIdx with
        angle := env.coordAngle ((apt.edgeD eIdx).getA apt).latD
          ((apt.edgeD eIdx).getA apt).lonD ((apt.edgeD eIdx).getB apt).latD
          ((apt.edgeD eIdx).getB apt).lonD,
        dist_m := env.distLatLon ((apt.edgeD eIdx).getA apt).latD
          ((apt.edgeD eIdx).getA apt).lonD ((apt.edgeD eIdx).getB apt).latD
          ((apt.edgeD eIdx).getB apt).lonD }
      have hty := normalize_type { apt.edgeD eIdx with
        angle := env.coordAngle ((apt.edgeD eIdx).getA apt).latD
          ((apt.edgeD eIdx).getA apt).lonD ((apt.edgeD eIdx).getB apt).latD
          ((apt.edgeD eIdx).getB apt).lonD,
        dist_m := env.distLatLon ((apt.edgeD eIdx).getA apt).latD
          ((apt.edgeD eIdx).getA apt).lonD ((apt.edgeD eIdx).getB apt).latD
          ((apt.edgeD eIdx).getB apt).lonD }
      refine ⟨fun hh => ?_, fun hh => ?_, ?_⟩
      · have hr' := hr (by rw [hty] at hh; exact hh)
        rcases hab with ⟨h1, h2⟩ | ⟨h1, h2⟩ <;> rw [h1, h2] <;>
          first
            | exact ⟨hr'.1, hr'.2⟩
            | exact ⟨hr'.2, hr'.1⟩
      · have htx' := htx (by rw [hty] at hh; exact hh)
        rcases hab with ⟨h1, h2⟩ | ⟨h1, h2⟩ <;> rw [h1, h2] <;>
          first
            | exact ⟨htx'.1, htx'.2⟩
            | exact ⟨htx'.2, htx'.1⟩
      · rw [hty]
        exact hu
  · intro e he
    unfold Apt.recalcTaxiEdge at he
    dsimp only at he
    rw [getD_set_oob (Nat.le_of_not_lt hlt)] at he
    exact ht e he

theorem typedIdx_moveNode (apt : Apt) (i : Nat) (lat lon : ℚ)
    (ht : TypedIdx apt) : TypedIdx (apt.setNodeCoords i lat lon) := by
  refine typedIdx_of_eq apt _ rfl ?_ (le_refl _) ht
  show apt.vecTaxiNodes.length ≤ (apt.setNodeCoords i lat lon).vecTaxiNodes.length
  unfold Apt.setNodeCoords
  dsimp only
  rw [List.length_set]

theorem typedIdx_rwyRegister (apt : Apt) (r n : Nat)
    (ht : TypedIdx apt) : TypedIdx (apt.pushRwyTaxiNode r n) := by
  refine typedIdx_of_eq apt _ rfl (le_refl _) ?_ ht
  show apt.vecRwyEndPts.length ≤ (apt.pushRwyTaxiNode r n).vecRwyEndPts.length
  unfold Apt.pushRwyTaxiNode
  dsimp only
  rw [List.length_set]

theorem typedIdx_sortEdges (apt : Apt) (ht : TypedIdx apt) :
    TypedIdx apt.sortTaxiEdges :=
  typedIdx_of_eq apt _ rfl (le_refl _) (le_refl _) ht

/-- Single-step preservation of the typed-endpoint validity along any
builder mutation. -/
theorem typedIdx_step (env : Env) (apt apt' : Apt)
    (hstep : BuildStep env apt apt') (ht : TypedIdx apt) : TypedIdx apt' := by
  cases hstep with
  | addNode lat lon dc => exact typedIdx_addTaxiNode env apt lat lon dc ht
  | addNodeFixed lat lon idx => exact typedIdx_addTaxiNodeFixed apt lat lon idx ht
  | addEdge n1 n2 dist eIdx hpx h => exact typedIdx_addTaxiEdge env apt n1 n2 dist eIdx apt' h ht
  | split eIdx insNode hpx htype h => exact typedIdx_splitEdge env apt eIdx insNode apt' htype h ht
  | addRwy lat1 lon1 d1 id1 lat2 lon2 d2 id2 => exact typedIdx_addRwyEnds env apt lat1 lon1 d1 id1 lat2 lon2 d2 id2 ht
  | recalc eIdx => exact typedIdx_recalc env apt eIdx ht
  | moveNode i lat lon => exact typedIdx_moveNode apt i lat lon ht
  | rwyRegister r n => exact typedIdx_rwyRegister apt r n ht
  | sortEdges => exact typedIdx_sortEdges apt ht

/-- Inversion of a successful `splitEdge` at the edge-store level: the store
is unchanged, only re-pointed at `eIdx`, or re-pointed and extended by the
new taxiway edge from `insNode` to the original far endpoint. -/
theorem splitEdge_edges_inv (env : Env) (apt : Apt) (eIdx insNode : Nat)
    (apt' : Apt) (h : apt.splitEdge env eIdx insNode = some apt') :
    apt'.vecTaxiEdges = apt.vecTaxiEdges ∨
    (∃ e', apt'.vecTaxiEdges = apt.vecTaxiEdges.set eIdx e') ∨
    (∃ e' ang d, apt'.vecTaxiEdges = apt.vecTaxiEdges.set eIdx e' ++
      [TaxiEdge.make EdgeTy.TAXI_WAY insNode (apt.edgeD eIdx).b ang d]) := by
  unfold Apt.splitEdge at h
  split at h
  · rename_i hlt
    dsimp only at h
    split at h
    · rw [Option.some.injEq] at h
      subst h
      exact Or.inl rfl
    · split at h
      · rename_i hne hins
        split at h
        · exact absurd h (by simp)
        · rename_i apt4 heq
          rw [Option.some.injEq] at h
          subst h
          rw [addTaxiEdge_failed_inv env _ apt4 insNode (apt.edgeD eIdx).b none heq]
          exact Or.inr (Or.inl ⟨_, rfl⟩)
        · rename_i i4 apt4 heq
          rw [Option.some.injEq] at h
          subst h
          obtain ⟨_, _, _, _, ang, d, hedges⟩ :=
            addTaxiEdge_ok_inv env _ insNode (apt.edgeD eIdx).b none i4 apt4 heq
          rw [hedges]
          exact Or.inr (Or.inr ⟨_, ang, d, rfl⟩)
      · exact absurd h (by simp)
  · exact absurd h (by simp)

/-- C10: every edge created through `AddTaxiEdge` — hence every
route-network (`1202`) edge — carries the `TAXI_WAY` tag and is appended
normalized; every edge `SplitEdge` adds beyond the existing store is a
`TAXI_WAY` edge; `AddRwyEnds` appends exactly two runway endpoints and
exactly one `RUN_WAY` edge connecting precisely those two endpoints; and
along every sequence of builder mutations the edge's type tag selects the
node store (runway endpoints for `RUN_WAY`, taxi nodes for `TAXI_WAY`) in
which both endpoint indexes are valid. -/
theorem edge_type_store_spec (env : Env) :
    (∀ (apt : Apt) (n1 n2 : Nat) (dist : Option ℚ) (eIdx : Nat) (apt' : Apt),
      apt.addTaxiEdge env n1 n2 dist = AddEdgeResult.ok eIdx apt' →
      ∃ ang d, apt'.vecTaxiEdges =
        apt.vecTaxiEdges ++ [TaxiEdge.make EdgeTy.TAXI_WAY n1 n2 ang d] ∧
        (TaxiEdge.make EdgeTy.TAXI_WAY n1 n2 ang d).type = EdgeTy.TAXI_WAY) ∧
    (∀ (apt : Apt) (eIdx insNode : Nat) (apt' : Apt),
      apt.splitEdge env eIdx insNode = some apt' →
      ∀ e ∈ apt'.vecTaxiEdges.drop apt.vecTaxiEdges.length,
        e.type = EdgeTy.TAXI_WAY) ∧
    (∀ (apt : Apt) (lat1 lon1 d1 : ℚ) (id1 : String) (lat2 lon2 d2 : ℚ)
        (id2 : String),
      (apt.addRwyEnds env lat1 lon1 d1 id1 lat2 lon2 d2 id2).vecRwyEndPts.length =
        apt.vecRwyEndPts.length + 2 ∧
      ∃ e, (apt.addRwyEnds env lat1 lon1 d1 id1 lat2 lon2 d2 id2).vecTaxiEdges =
          apt.vecTaxiEdges ++ [e] ∧ e.type = EdgeTy.RUN_WAY ∧
        ((e.a = apt.vecRwyEndPts.length ∧ e.b = apt.vecRwyEndPts.length + 1) ∨
         (e.b = apt.vecRwyEndPts.length ∧ e.a = apt.vecRwyEndPts.length + 1))) ∧
    (∀ s t : Apt, TypedIdx s → Relation.ReflTransGen (BuildStep env) s t →
      TypedIdx t) := by
  refine ⟨?_, ?_, ?_, ?_⟩
  · intro apt n1 n2 dist eIdx apt' h
    obtain ⟨_, _, _, _, ang, d, hedges⟩ := addTaxiEdge_ok_inv env apt n1 n2 dist eIdx apt' h
    exact ⟨ang, d, hedges, make_type _ _ _ _ _⟩
  · intro apt eIdx insNode apt' h e he
    rcases splitEdge_edges_inv env apt eIdx insNode apt' h with hE | ⟨e', hE⟩ | ⟨e', ang, d, hE⟩
    · rw [hE, List.drop_length] at he
      exact absurd he (List.not_mem_nil e)
    · rw [hE] at he
      have : (apt.vecTaxiEdges.set eIdx e').drop apt.vecTaxiEdges.length = [] := by
        rw [List.drop_eq_nil_iff, List.length_set]
      rw [this] at he
      exact absurd he (List.not_mem_nil e)
    · rw [hE] at he
      have : ((apt.vecTaxiEdges.set eIdx e') ++
          [TaxiEdge.make EdgeTy.TAXI_WAY insNode (apt.edgeD eIdx).b ang d]).drop
            apt.vecTaxiEdges.length =
          [TaxiEdge.make EdgeTy.TAXI_WAY insNode (apt.edgeD eIdx).b ang d] := by
        rw [show apt.vecTaxiEdges.length = (apt.vecTaxiEdges.set eIdx e').length from
              (List.length_set _ _ _).symm,
            List.drop_left]
      rw [this, List.mem_singleton] at he
      subst he
      exact make_type _ _ _ _ _
  · intro apt lat1 lon1 d1 id1 lat2 lon2 d2 id2
    constructor
    · unfold Apt.addRwyEnds
      dsimp only
      simp
    · unfold Apt.addRwyEnds
      dsimp only
      refine ⟨_, rfl, make_type _ _ _ _ _, ?_⟩
      rw [show ((apt.vecRwyEndPts ++ [_, _] : List RwyEndPt)).length =
            apt.vecRwyEndPts.length + 2 from by simp]
      rcases make_ab EdgeTy.RUN_WAY (apt.vecRwyEndPts.length + 2 - 2)
          (apt.vecRwyEndPts.length + 2 - 1) (env.vecBetween lat1 lon1 lat2 lon2).1
          (((env.vecBetween lat1 lon1 lat2 lon2).2 - d1 - d2) *
            (1 - 2 * env.artRwyTdPointF)) with ⟨h1, h2⟩ | ⟨h1, h2⟩ <;>
        rw [h1, h2] <;> simp
  · intro s t hs hrt
    induction hrt with
    | refl => exact hs
    | tail _ hstep ih => exact typedIdx_step env _ _ hstep ih

/-- A fresh airport object for the builder witness. -/
def wApt0 : Apt :=
  { id := "", bounds := ⟨none, none, none, none⟩, alt_m := none,
    vecTaxiNodes := [], vecRwyEndPts := [], vecTaxiEdges := [],
    vecTaxiEdgesIdxHead := [] }

/-- The witness airport after adding a runway. -/
def wApt10a : Apt := wApt0.addRwyEnds wEnv 0 0 0 "" 0 10 0 ""

/-- The witness airport after additionally adding a taxi node. -/
def wApt10b : Apt := (wApt10a.addTaxiNode wEnv 1 1 none).2

/-- Witness for `edge_type_store_spec`: the typed-endpoint validity holds
after a concrete builder run (runway added, then a taxi node). -/
theorem edge_type_store_spec_witness : TypedIdx wApt10b :=
  (edge_type_store_spec wEnv).2.2.2 wApt0 wApt10b
    (fun e he => absurd he (List.not_mem_nil e))
    (Relation.ReflTransGen.tail
      (Relation.ReflTransGen.single (BuildStep.addRwy wApt0 0 0 0 "" 0 10 0 ""))
      (BuildStep.addNode wApt10a 1 1 none))

/-! ### C1/C2/C3: the bounded shortest-path search -/

theorem getD_replicate {α : Type} (n i : Nat) (a : α) :
    (List.replicate n a).getD i a = a := by
  rw [List.getD_eq_getElem?_getD, List.getElem?_replicate]
  split <;> rfl

theorem pl_init (N n : Nat) : (initDijkstra N).pl n = ⊤ :=
  getD_replicate N n ⊤

theorem pv_init (N n : Nat) : (initDijkstra N).pv n = Prev.unset :=
  getD_replicate N n Prev.unset

/-- The (weaker) invariant established by seeding: correct lengths, no node
has a real predecessor yet, and every start-marked node is a seed at
distance `0`. -/
structure SeedInv (apt : Apt) (seeds : List Nat) (s : DijkState) : Prop where
  lenPL : s.pathLen.length = apt.vecTaxiNodes.length
  lenPV : s.prevIdx.length = apt.vecTaxiNodes.length
  lenVIS : s.visited.length = apt.vecTaxiNodes.length
  noNode : ∀ n p, s.pv n ≠ Prev.node p
  startProp : ∀ n, s.pv n = Prev.startMark → s.pl n = 0 ∧ n ∈ seeds

theorem seedNode_inv (apt : Apt) (seeds : List Nat) (s : DijkState) (x : Nat)
    (hx : x ∈ seeds) (hs : SeedInv apt seeds s) :
    SeedInv apt seeds (seedNode s x) := by
  rcases Nat.lt_or_ge x s.prevIdx.length with hlt | hge
  · have hltP : x < s.pathLen.length := by rw [hs.lenPL, ← hs.lenPV]; exact hlt
    refine ⟨by simp [seedNode, hs.lenPL], by simp [seedNode, hs.lenPV],
            by simp [seedNode, hs.lenVIS], ?_, ?_⟩
    · intro n p
      show (s.prevIdx.set x Prev.startMark).getD n Prev.unset ≠ Prev.node p
      rcases eq_or_ne x n with rfl | hne
      · rw [getD_set_self hlt]
        simp
      · rw [getD_set_ne hne]
        exact hs.noNode n p
    · intro n hn
      replace hn : (s.prevIdx.set x Prev.startMark).getD n Prev.unset = Prev.startMark := hn
      show (s.pathLen.set x 0).getD n ⊤ = 0 ∧ n ∈ seeds
      rcases eq_or_ne x n with rfl | hne
      · rw [getD_set_self hltP]
        exact ⟨rfl, hx⟩
      · rw [getD_set_ne hne] at hn ⊢
        exact hs.startProp n hn
  · have hgeP : s.pathLen.length ≤ x := by rw [hs.lenPL, ← hs.lenPV]; exact hge
    refine ⟨?_, ?_, by simp [seedNode, hs.lenVIS], ?_, ?_⟩
    · show (s.pathLen.set x 0).length = _
      rw [getD_set_oob hgeP]
      exact hs.lenPL
    · show (s.prevIdx.set x Prev.startMark).length = _
      rw [getD_set_oob hge]
      exact hs.lenPV
    · intro n p
      show (s.prevIdx.set x Prev.startMark).getD n Prev.unset ≠ Prev.node p
      rw [getD_set_oob hge]
      exact hs.noNode n p
    · intro n hn
      replace hn : (s.prevIdx.set x Prev.startMark).getD n Prev.unset = Prev.startMark := hn
      rw [getD_set_oob hge] at hn
      show (s.pathLen.set x 0).getD n ⊤ = 0 ∧ n ∈ seeds
      rw [getD_set_oob hgeP]
      exact hs.startProp n hn

theorem seedAll_inv (apt : Apt) (seeds : List Nat) :
    ∀ (ns : List Nat) (s : DijkState), (∀ x ∈ ns, x ∈ seeds) →
      SeedInv apt seeds s → SeedInv apt seeds (seedAll s ns)
  | [], s, _, hs => hs
  | x :: xs, s, hmem, hs => by
    show SeedInv apt seeds (seedAll (seedNode s x) xs)
    exact seedAll_inv apt seeds xs (seedNode s x)
      (fun y hy => hmem y (List.mem_cons_of_mem x hy))
      (seedNode_inv apt seeds s x (hmem x (List.mem_cons_self x xs)) hs)

theorem dinv_of_seedInv (apt : Apt) (maxLen : ℚ) (seeds : List Nat)
    (s : DijkState) (hs : SeedInv apt seeds s) : DInv apt maxLen seeds s :=
  ⟨hs.lenPL, hs.lenPV, hs.lenVIS, hs.startProp,
   fun n p hn => absurd hn (hs.noNode n p)⟩

theorem dinv_seeded (apt : Apt) (maxLen : ℚ) (seeds : List Nat) :
    DInv apt maxLen seeds (seedAll (initDijkstra apt.vecTaxiNodes.length) seeds) := by
  refine dinv_of_seedInv apt maxLen seeds _ (seedAll_inv apt seeds seeds _ (fun x hx => hx) ?_)
  exact ⟨by simp [initDijkstra], by simp [initDijkstra], by simp [initDijkstra],
         fun n p => by rw [pv_init]; simp,
         fun n hn => absurd hn (by rw [pv_init]; simp)⟩

theorem findShortest_snd (pl : List (WithTop ℚ)) :
    ∀ (l : List Nat), l ≠ [] →
      (findShortest pl l).2 = pl.getD (findShortest pl l).1 ⊤
  | [], h => absurd rfl h
  | x :: xs, _ => by
    show (xs.foldl _ (x, pl.getD x ⊤)).2 = _
    have key : ∀ (ys : List Nat) (b : Nat × WithTop ℚ),
        b.2 = pl.getD b.1 ⊤ →
        (ys.foldl (fun best i =>
          if pl.getD i ⊤ < best.2 then (i, pl.getD i ⊤) else best) b).2 =
        pl.getD (ys.foldl (fun best i =>
          if pl.getD i ⊤ < best.2 then (i, pl.getD i ⊤) else best) b).1 ⊤ := by
      intro ys
      induction ys with
      | nil => intro b hb; exact hb
      | cons y ys ih =>
        intro b hb
        show (ys.foldl _ (if pl.getD y ⊤ < b.2 then (y, pl.getD y ⊤) else b)).2 = _
        apply ih
        split
        · rfl
        · exact hb
    exact key xs (x, pl.getD x ⊤) rfl

theorem dinv_visit (apt : Apt) (maxLen : ℚ) (seeds : List Nat) (s : DijkState)
    (i : Nat) (l : List Nat) (h : DInv apt maxLen seeds s) :
    DInv apt maxLen seeds
      { s with visited := s.visited.set i true, vecVisit := l } := by
  refine ⟨h.lenPL, h.lenPV, by simp [h.lenVIS], h.startProp, ?_⟩
  intro n p hn
  obtain ⟨hv, hl, he⟩ := h.nodeProp n p hn
  refine ⟨?_, hl, he⟩
  show (s.visited.set i true).getD p false = true
  rcases eq_or_ne i p with rfl | hne
  · rcases Nat.lt_or_ge i s.visited.length with hlt | hge
    · rw [getD_set_self hlt]
    · rw [getD_set_oob hge]
      exact hv
  · rw [getD_set_ne hne]
    exact hv

theorem adjWF_spec (apt : Apt) (hwf : adjWF apt = true) (i e : Nat)
    (hi : i < apt.vecTaxiNodes.length) (he : e ∈ (apt.nodeD i).vecEdges) :
    e < apt.vecTaxiEdges.length ∧
    ((apt.edgeD e).a = i ∨ (apt.edgeD e).b = i) := by
  unfold adjWF at hwf
  rw [List.all_eq_true] at hwf
  have h1 := hwf i (List.mem_range.mpr hi)
  rw [List.all_eq_true] at h1
  have h2 := h1 e he
  simp only [Bool.and_eq_true, decide_eq_true_eq, Bool.or_eq_true,
    beq_iff_eq] at h2
  exact h2

theorem dinv_setVisit (apt : Apt) (maxLen : ℚ) (seeds : List Nat)
    (s : DijkState) (l : List Nat) (h : DInv apt maxLen seeds s) :
    DInv apt maxLen seeds { s with vecVisit := l } :=
  ⟨h.lenPL, h.lenPV, h.lenVIS, h.startProp, h.nodeProp⟩

theorem connectsB_otherNode (apt : Apt) (eIdx sIdx : Nat)
    (hE : eIdx < apt.vecTaxiEdges.length)
    (hab : (apt.edgeD eIdx).a = sIdx ∨ (apt.edgeD eIdx).b = sIdx) :
    connectsB apt eIdx sIdx ((apt.edgeD eIdx).otherNode sIdx) = true := by
  unfold connectsB TaxiEdge.otherNode
  rcases eq_or_ne sIdx (apt.edgeD eIdx).a with hsa | hsa
  · rw [if_pos hsa]
    simp [hE, hsa.symm]
  · rw [if_neg hsa]
    have hb : (apt.edgeD eIdx).b = sIdx := by
      rcases hab with h | h
      · exact absurd h.symm hsa
      · exact h
    simp [hE, hb]

theorem relax_inv (apt : Apt) (maxLen : ℚ) (seeds : List Nat) (endN sIdx : Nat)
    (hwf : adjWF apt = true) (hsIdx : sIdx < apt.vecTaxiNodes.length) :
    ∀ (es : List Nat) (s : DijkState) (sDist : WithTop ℚ),
      DInv apt maxLen seeds s → s.vis sIdx = true → sDist = s.pl sIdx →
      (∀ e ∈ es, e ∈ (apt.nodeD sIdx).vecEdges) →
      DInv apt maxLen seeds (relaxEdges apt endN maxLen sIdx sDist es s) := by
  intro es
  induction es with
  | nil =>
    intro s sDist hinv _ _ _
    exact hinv
  | cons eIdx rest ih =>
    intro s sDist hinv hvis hsd hes
    have hmem : eIdx ∈ (apt.nodeD sIdx).vecEdges :=
      hes eIdx (List.mem_cons_self _ _)
    have hrest : ∀ e ∈ rest, e ∈ (apt.nodeD sIdx).vecEdges :=
      fun e he => hes e (List.mem_cons_of_mem _ he)
    simp only [relaxEdges]
    split
    · exact ih s sDist hinv hvis hsd hrest
    · rename_i hUnvis
      split
      · exact ih s sDist hinv hvis hsd hrest
      · rename_i hGuard
        push_neg at hGuard
        rcases Nat.lt_or_ge ((apt.edgeD eIdx).otherNode sIdx) s.prevIdx.length
          with hult | huge
        · have hultP : (apt.edgeD eIdx).otherNode sIdx < s.pathLen.length := by
            rw [hinv.lenPL, ← hinv.lenPV]
            exact hult
          have hne_su : sIdx ≠ (apt.edgeD eIdx).otherNode sIdx := by
            intro hcontra
            rw [← hcontra, hvis] at hUnvis
            exact hUnvis rfl
          have hinv' : DInv apt maxLen seeds
              { s with
                pathLen := s.pathLen.set ((apt.edgeD eIdx).otherNode sIdx)
                  (sDist + ((apt.edgeD eIdx).dist_m : WithTop ℚ)),
                prevIdx := s.prevIdx.set ((apt.edgeD eIdx).otherNode sIdx)
                  (Prev.node sIdx) } := by
            refine ⟨by simp [hinv.lenPL], by simp [hinv.lenPV], hinv.lenVIS, ?_, ?_⟩
            · intro n hn
              replace hn : (s.prevIdx.set _ (Prev.node sIdx)).getD n Prev.unset =
                Prev.startMark := hn
              show (s.pathLen.set _ _).getD n ⊤ = 0 ∧ n ∈ seeds
              rcases eq_or_ne ((apt.edgeD eIdx).otherNode sIdx) n with heqn | hne
              · rw [← heqn, getD_set_self hult] at hn
                exact absurd hn (by simp)
              · rw [getD_set_ne hne] at hn
                rw [getD_set_ne hne]
                exact hinv.startProp n hn
            · intro n p hn
              replace hn : (s.prevIdx.set _ (Prev.node sIdx)).getD n Prev.unset =
                Prev.node p := hn
              rcases eq_or_ne ((apt.edgeD eIdx).otherNode sIdx) n with heqn | hne
              · rw [← heqn, getD_set_self hult] at hn
                have hp : sIdx = p := by simpa using hn
                subst hp
                refine ⟨hvis, ?_, ?_⟩
                · show (s.pathLen.set _ _).getD n ⊤ ≤ _
                  rw [← heqn, getD_set_self hultP]
                  exact hGuard.1
                · obtain ⟨heltE, hab⟩ := adjWF_spec apt hwf sIdx eIdx hsIdx hmem
                  refine ⟨eIdx, ?_, ?_⟩
                  · rw [← heqn]
                    exact connectsB_otherNode apt eIdx sIdx heltE
                      (by rcases hab with h | h
                          · exact Or.inl h
                          · exact Or.inr h)
                  · show (s.pathLen.set _ _).getD n ⊤ =
                      (s.pathLen.set _ _).getD sIdx ⊤ + _
                    rw [← heqn, getD_set_self hultP,
                        getD_set_ne (fun hc => hne_su hc.symm), hsd]
                    rfl
              · rw [getD_set_ne hne] at hn
                obtain ⟨hv, hl, e', hc, heq⟩ := hinv.nodeProp n p hn
                have hpu : p ≠ (apt.edgeD eIdx).otherNode sIdx := by
                  intro hcontra
                  rw [hcontra] at hv
                  rw [hv] at hUnvis
                  exact hUnvis rfl
                refine ⟨hv, ?_, e', hc, ?_⟩
                · show (s.pathLen.set _ _).getD n ⊤ ≤ _
                  rw [getD_set_ne hne]
                  exact hl
                · show (s.pathLen.set _ _).getD n ⊤ =
                    (s.pathLen.set _ _).getD p ⊤ + _
                  rw [getD_set_ne hne, getD_set_ne (fun hc => hpu hc.symm)]
                  exact heq
          split
          · exact hinv'
          · refine ih _ sDist (dinv_setVisit apt maxLen seeds _ _ hinv') hvis
              ?_ hrest
            show sDist = (s.pathLen.set _ _).getD sIdx ⊤
            rw [getD_set_ne (fun hc => hne_su hc.symm)]
            exact hsd
        · have hugeP : s.pathLen.length ≤ (apt.edgeD eIdx).otherNode sIdx := by
            rw [hinv.lenPL, ← hinv.lenPV]
            exact huge
          have hinv' : DInv apt maxLen seeds
              { s with
                pathLen := s.pathLen.set ((apt.edgeD eIdx).otherNode sIdx)
                  (sDist + ((apt.edgeD eIdx).dist_m : WithTop ℚ)),
                prevIdx := s.prevIdx.set ((apt.edgeD eIdx).otherNode sIdx)
                  (Prev.node sIdx) } := by
            rw [getD_set_oob huge, getD_set_oob hugeP]
            exact ⟨hinv.lenPL, hinv.lenPV, hinv.lenVIS, hinv.startProp, hinv.nodeProp⟩
          split
          · exact hinv'
          · refine ih _ sDist (dinv_setVisit apt maxLen seeds _ _ hinv') hvis
              ?_ hrest
            show sDist = (s.pathLen.set _ _).getD sIdx ⊤
            rw [getD_set_oob hugeP]
            exact hsd

theorem getD_oob {α : Type} {l : List α} {i : Nat} (h : l.length ≤ i) (d : α) :
    l.getD i d = d := by
  rw [List.getD_eq_getElem?_getD, List.getElem?_eq_none h]
  rfl

theorem nodeD_oob (apt : Apt) {i : Nat} (h : apt.vecTaxiNodes.length ≤ i) :
    apt.nodeD i = TaxiNode.empty :=
  getD_oob h _

theorem loop_inv (apt : Apt) (maxLen : ℚ) (seeds : List Nat) (endN : Nat)
    (hwf : adjWF apt = true) :
    ∀ (fuel : Nat) (s s' : DijkState),
      dijkLoop apt endN maxLen fuel s = some s' →
      DInv apt maxLen seeds s → DInv apt maxLen seeds s' := by
  intro fuel
  induction fuel with
  | zero =>
    intro s s' h
    exact absurd h (by simp [dijkLoop])
  | succ fuel ih =>
    intro s s' h hinv
    simp only [dijkLoop] at h
    split at h
    · rw [Option.some.injEq] at h
      subst h
      exact hinv
    · rename_i hcond
      push_neg at hcond
      apply ih _ _ h
      have hinv1 := dinv_visit apt maxLen seeds s
        (findShortest s.pathLen s.vecVisit).1
        (s.vecVisit.erase (findShortest s.pathLen s.vecVisit).1) hinv
      rcases Nat.lt_or_ge (findShortest s.pathLen s.vecVisit).1
          apt.vecTaxiNodes.length with hlt | hge
      · refine relax_inv apt maxLen seeds endN _ hwf hlt _ _ _ hinv1 ?_ ?_
          (fun e he => he)
        · show (s.visited.set _ true).getD _ false = true
          rw [getD_set_self]
          rw [hinv.lenVIS]
          exact hlt
        · show (findShortest s.pathLen s.vecVisit).2 = _
          rw [findShortest_snd s.pathLen s.vecVisit hcond.1]
          rfl
      · rw [nodeD_oob apt hge]
        show DInv apt maxLen seeds (relaxEdges apt endN maxLen _ _ [] _)
        exact hinv1

theorem buildPath_chain (s : DijkState) :
    ∀ (fuel n : Nat) (acc l : List Nat),
      buildPath s fuel n acc = some l →
      ∃ c sN, l = acc ++ c ∧ PrevChain s n c sN := by
  intro fuel
  induction fuel with
  | zero =>
    intro n acc l h
    exact absurd h (by simp [buildPath])
  | succ fuel ih =>
    intro n acc l h
    simp only [buildPath] at h
    split at h
    · rename_i hpv
      rw [Option.some.injEq] at h
      refine ⟨[], n, ?_, PrevChain.stop n hpv⟩
      rw [← h, List.append_nil]
    · rename_i p hpv
      obtain ⟨c, sN, hl, hchain⟩ := ih p (acc ++ [n]) l h
      refine ⟨n :: c, sN, ?_, PrevChain.step n p c sN hpv hchain⟩
      rw [hl, List.append_assoc]
      rfl
    · exact absurd h (by simp)

theorem prevChain_start (s : DijkState) (n : Nat) (c : List Nat) (sN : Nat)
    (h : PrevChain s n c sN) : s.pv sN = Prev.startMark := by
  induction h with
  | stop n hn => exact hn
  | step n p c sN hn hc ih => exact ih

theorem prevChain_mem (s : DijkState) (n : Nat) (c : List Nat) (sN : Nat)
    (h : PrevChain s n c sN) : ∀ m ∈ c, ∃ p, s.pv m = Prev.node p := by
  induction h with
  | stop n hn =>
    intro m hm
    exact absurd hm (List.not_mem_nil m)
  | step n p c sN hn hc ih =>
    intro m hm
    rcases List.mem_cons.mp hm with rfl | hm
    · exact ⟨p, hn⟩
    · exact ih m hm

theorem prevChain_head (s : DijkState) (n : Nat) (c : List Nat) (sN : Nat)
    (h : PrevChain s n c sN) : c = [] ∨ ∃ c0, c = n :: c0 := by
  induction h with
  | stop n hn => exact Or.inl rfl
  | step n p c sN hn hc ih => exact Or.inr ⟨c, rfl⟩

theorem chainOK_snoc (apt : Apt) (m e : Nat) :
    ∀ (ns : List Nat) (p : Nat) (es : List Nat),
      chainOK apt (ns ++ [p]) es = true → connectsB apt e p m = true →
      chainOK apt (ns ++ [p, m]) (es ++ [e]) = true := by
  intro ns
  induction ns with
  | nil =>
    intro p es h hc
    cases es with
    | nil => simp [chainOK, hc]
    | cons e1 es1 => simp [chainOK] at h
  | cons a tail ih =>
    intro p es h hc
    cases tail with
    | nil =>
      cases es with
      | nil => simp [chainOK] at h
      | cons e1 es1 =>
        simp only [List.cons_append, List.nil_append, chainOK,
          Bool.and_eq_true] at h ⊢
        exact ⟨h.1, ih p es1 h.2 hc⟩
    | cons b r =>
      cases es with
      | nil => simp [chainOK] at h
      | cons e1 es1 =>
        simp only [List.cons_append, chainOK, Bool.and_eq_true] at h ⊢
        exact ⟨h.1, ih p es1 h.2 hc⟩

theorem chainLen_append (apt : Apt) (es : List Nat) (e : Nat) :
    chainLen apt (es ++ [e]) = chainLen apt es + (apt.edgeD e).dist_m := by
  simp [chainLen]

theorem chain_sum (apt : Apt) (maxLen : ℚ) (seeds : List Nat) (s : DijkState)
    (hinv : DInv apt maxLen seeds s) (n : Nat) (c : List Nat) (sN : Nat)
    (h : PrevChain s n c sN) :
    sN ∈ seeds ∧
    ∃ ns es, sN :: c.reverse = ns ++ [n] ∧
      chainOK apt (sN :: c.reverse) es = true ∧
      s.pl n = ((chainLen apt es : ℚ) : WithTop ℚ) := by
  induction h with
  | stop n hn =>
    obtain ⟨hpl, hmem⟩ := hinv.startProp n hn
    refine ⟨hmem, [], [], rfl, ?_, ?_⟩
    · simp [chainOK]
    · rw [hpl]
      simp [chainLen]
  | step n p c sN hn hc ih =>
    obtain ⟨hmem, ns, es, hrep, hok, hlen⟩ := ih
    obtain ⟨hvis, hle, eIdx, hconn, heq⟩ := hinv.nodeProp n p hn
    have h1 : sN :: (n :: c).reverse = ns ++ [p, n] := by
      rw [List.reverse_cons, ← List.cons_append, hrep, List.append_assoc]
      rfl
    have hok2 : chainOK apt (ns ++ [p, n]) (es ++ [eIdx]) = true := by
      refine chainOK_snoc apt n eIdx ns p es ?_ hconn
      rw [← hrep]
      exact hok
    refine ⟨hmem, ns ++ [p], es ++ [eIdx], ?_, ?_, ?_⟩
    · rw [h1, List.append_assoc]
      rfl
    · rw [h1]
      exact hok2
    · rw [heq, hlen, chainLen_append]
      push_cast
      rfl

theorem shortestPathS_some (apt : Apt) (startN endN : Nat) (b : Bool)
    (maxLen : ℚ) (l : List Nat) (s : DijkState) (hwf : adjWF apt = true)
    (h : apt.shortestPathS startN b endN maxLen = some (l, s)) (hne : l ≠ []) :
    DInv apt maxLen (apt.dijkSeeds startN b) s ∧
    ∃ sN, PrevChain s endN l sN := by
  rw [Apt.shortestPathS] at h
  split at h
  · rw [Option.some.injEq, Prod.mk.injEq] at h
    exact absurd h.1.symm hne
  · dsimp only at h
    cases hloop : dijkLoop apt endN maxLen
        (apt.vecTaxiNodes.length + (apt.dijkSeeds startN b).length + 1)
        (seedAll (initDijkstra apt.vecTaxiNodes.length)
          (apt.dijkSeeds startN b)) with
    | none =>
      rw [hloop] at h
      exact absurd h (by simp)
    | some s2 =>
      rw [hloop] at h
      split at h
      · exact absurd h (by simp)
      · rename_i s3 heqs
        rw [Option.some.injEq] at heqs
        subst heqs
        split at h
        · rw [Option.some.injEq, Prod.mk.injEq] at h
          exact absurd h.1.symm hne
        · rw [Option.map_eq_some'] at h
          obtain ⟨a, hbp, heq⟩ := h
          rw [Prod.mk.injEq] at heq
          obtain ⟨rfl, rfl⟩ := heq
          have hinv2 : DInv apt maxLen (apt.dijkSeeds startN b) s2 :=
            loop_inv apt maxLen (apt.dijkSeeds startN b) endN hwf _ _ _ hloop
              (dinv_seeded apt maxLen (apt.dijkSeeds startN b))
          obtain ⟨c, sN, hl, hchain⟩ :=
            buildPath_chain s2 (apt.vecTaxiNodes.length + 1) endN [] a hbp
          rw [List.nil_append] at hl
          subst hl
          exact ⟨hinv2, sN, hchain⟩

/-- Example graph: a three-node path `0 -1m- 1 -1m- 2` of taxiways. -/
def exApt3 : Apt :=
  { id := "", bounds := ⟨none, none, none, none⟩, alt_m := none,
    vecTaxiNodes := [⟨some 0, some 0, [0]⟩, ⟨some 0, some 1, [0, 1]⟩,
                     ⟨some 0, some 2, [1]⟩],
    vecRwyEndPts := [],
    vecTaxiEdges := [TaxiEdge.make EdgeTy.TAXI_WAY 0 1 0 1,
                     TaxiEdge.make EdgeTy.TAXI_WAY 1 2 0 1],
    vecTaxiEdgesIdxHead := [0, 1] }

/-- Example graph: a four-node diamond of taxiways whose direct branch
`0 -1m- 1 -100m- 3` is much longer than the branch `0 -10m- 2 -1m- 3`. -/
def exApt4 : Apt :=
  { id := "", bounds := ⟨none, none, none, none⟩, alt_m := none,
    vecTaxiNodes := [⟨some 0, some 0, [0, 1]⟩, ⟨some 0, some 1, [0, 2]⟩,
                     ⟨some 0, some 2, [1, 3]⟩, ⟨some 0, some 3, [2, 3]⟩],
    vecRwyEndPts := [],
    vecTaxiEdges := [TaxiEdge.make EdgeTy.TAXI_WAY 0 1 0 1,
                     TaxiEdge.make EdgeTy.TAXI_WAY 0 2 0 10,
                     TaxiEdge.make EdgeTy.TAXI_WAY 1 3 0 100,
                     TaxiEdge.make EdgeTy.TAXI_WAY 2 3 0 1],
    vecTaxiEdgesIdxHead := [0, 1, 2, 3] }

/-- C1: for every airport graph (with well-formed adjacency lists), every
start/end pair and every maximum length, a non-empty node list returned by
`Apt::ShortestPath` denotes a path — starting at one of the seeded start
nodes and running along existing edges of the graph — whose summed edge
length never exceeds the supplied maximum. -/
theorem shortestPath_within_budget (apt : Apt) (startN endN : Nat) (b : Bool)
    (maxLen : ℚ) (l : List Nat) (hwf : adjWF apt = true)
    (h : apt.shortestPath startN b endN maxLen = some l) (hne : l ≠ []) :
    ∃ sN es, sN ∈ apt.dijkSeeds startN b ∧
      chainOK apt (sN :: l.reverse) es = true ∧
      chainLen apt es ≤ maxLen := by
  rw [Apt.shortestPath, Option.map_eq_some'] at h
  obtain ⟨⟨l2, s⟩, hs, hfst⟩ := h
  subst hfst
  obtain ⟨hinv, sN, hchain⟩ :=
    shortestPathS_some apt startN endN b maxLen l2 s hwf hs hne
  obtain ⟨hmem, ns, es, hrep, hok, hlen⟩ :=
    chain_sum apt maxLen (apt.dijkSeeds startN b) s hinv endN l2 sN hchain
  refine ⟨sN, es, hmem, hok, ?_⟩
  have hmemE : endN ∈ l2 := by
    rcases prevChain_head s endN l2 sN hchain with rfl | ⟨c0, rfl⟩
    · exact absurd rfl hne
    · exact List.mem_cons_self endN c0
  obtain ⟨p, hp⟩ := prevChain_mem s endN l2 sN hchain endN hmemE
  obtain ⟨_, hle, _⟩ := hinv.nodeProp endN p hp
  rw [hlen] at hle
  exact_mod_cast hle

/-- C1 witness: on the three-node path graph the search from node `0` to
node `2` with budget `10` returns `[2, 1]`, a within-budget path. -/
theorem shortestPath_within_budget_witness :
    ∃ sN es, sN ∈ exApt3.dijkSeeds 0 false ∧
      chainOK exApt3 (sN :: [2, 1].reverse) es = true ∧
      chainLen exApt3 es ≤ 10 :=
  shortestPath_within_budget exApt3 0 2 false 10 [2, 1] (by decide)
    (by decide) (by decide)

/-- C2 (amended): the search loop of `Apt::ShortestPath` stops as soon as
the destination node has *received a predecessor* — which happens when the
destination is first relaxed, before it is finalized — or when the frontier
empties, and in the latter no-predecessor case the returned path is empty.
Because the loop already stops when the destination is first reached (and
the relaxation loop `break`s there), a non-empty returned path is a
within-budget path from the seed set but not necessarily a shortest one. -/
theorem shortestPath_stop_condition (apt : Apt) (startN endN : Nat)
    (b : Bool) (maxLen : ℚ) :
    (∀ (fuel : Nat) (s s2 : DijkState),
        dijkLoop apt endN maxLen fuel s = some s2 →
        s2.vecVisit = [] ∨ s2.pv endN ≠ Prev.unset) ∧
    (∀ (l : List Nat) (s : DijkState),
        apt.shortestPathS startN b endN maxLen = some (l, s) →
        s.pv endN = Prev.unset → l = []) := by
  constructor
  · intro fuel
    induction fuel with
    | zero =>
      intro s s2 h
      exact absurd h (by simp [dijkLoop])
    | succ fuel ih =>
      intro s s2 h
      simp only [dijkLoop] at h
      split at h
      · rename_i hcond
        rw [Option.some.injEq] at h
        subst h
        exact hcond
      · exact ih _ _ h
  · intro l s h hunset
    rw [Apt.shortestPathS] at h
    split at h
    · rw [Option.some.injEq, Prod.mk.injEq] at h
      exact h.1.symm
    · dsimp only at h
      cases hloop : dijkLoop apt endN maxLen
          (apt.vecTaxiNodes.length + (apt.dijkSeeds startN b).length + 1)
          (seedAll (initDijkstra apt.vecTaxiNodes.length)
            (apt.dijkSeeds startN b)) with
      | none =>
        rw [hloop] at h
        exact absurd h (by simp)
      | some s2 =>
        rw [hloop] at h
        split at h
        · exact absurd h (by simp)
        · rename_i s3 heqs
          rw [Option.some.injEq] at heqs
          subst heqs
          split at h
          · rw [Option.some.injEq, Prod.mk.injEq] at h
            exact h.1.symm
          · rename_i hnu
            rw [Option.map_eq_some'] at h
            obtain ⟨a, hbp, heq⟩ := h
            rw [Prod.mk.injEq] at heq
            obtain ⟨rfl, rfl⟩ := heq
            exact absurd hunset hnu

/-- C2 witness: a loop run that exits on an empty frontier satisfies the
stop condition. -/
theorem shortestPath_stop_condition_witness :
    (initDijkstra 0).vecVisit = [] ∨ (initDijkstra 0).pv 0 ≠ Prev.unset :=
  (shortestPath_stop_condition wApt0 0 0 false 0).1 1 (initDijkstra 0)
    (initDijkstra 0) (by decide)

/-- C2 counterexample: on the diamond graph the search from node `0` to
node `3` with budget `1000` returns the path `[3, 1]` (over edges `0` and
`2`, summed length `101`) although `[0, 2, 3]` (over edges `1` and `3`,
summed length `11`) is a within-budget path — the returned non-empty path
is *not* a shortest within-budget path, because the loop stops as soon as
the destination receives a predecessor rather than when it is finalized. -/
theorem shortestPath_not_shortest_cex :
    exApt4.shortestPath 0 false 3 1000 = some [3, 1] ∧
    chainOK exApt4 (0 :: [3, 1].reverse) [0, 2] = true ∧
    chainLen exApt4 [0, 2] = 101 ∧
    chainOK exApt4 [0, 2, 3] [1, 3] = true ∧
    chainLen exApt4 [1, 3] = 11 := by
  refine ⟨by decide, by decide, ?_, by decide, ?_⟩
  · decide
  · decide

/-- C3 (amended): a non-empty list returned by `Apt::ShortestPath` lists the
destination node first and runs in reverse order along the predecessor
chain, but the start node is *excluded*: the chain's seeded start node (one
of the runway-attached taxi nodes when the start is a runway endpoint, else
the start node itself) is the predecessor of the last listed node and is
not an element of the returned list. -/
theorem shortestPath_endpoints (apt : Apt) (startN endN : Nat) (b : Bool)
    (maxLen : ℚ) (l : List Nat) (hwf : adjWF apt = true)
    (h : apt.shortestPath startN b endN maxLen = some l) (hne : l ≠ []) :
    l.head? = some endN ∧
    ∃ s sN, apt.shortestPathS startN b endN maxLen = some (l, s) ∧
      sN ∈ apt.dijkSeeds startN b ∧ PrevChain s endN l sN ∧ sN ∉ l := by
  rw [Apt.shortestPath, Option.map_eq_some'] at h
  obtain ⟨⟨l2, s⟩, hs, hfst⟩ := h
  subst hfst
  obtain ⟨hinv, sN, hchain⟩ :=
    shortestPathS_some apt startN endN b maxLen l2 s hwf hs hne
  have hmem :=
    (chain_sum apt maxLen (apt.dijkSeeds startN b) s hinv endN l2 sN hchain).1
  constructor
  · rcases prevChain_head s endN l2 sN hchain with rfl | ⟨c0, rfl⟩
    · exact absurd rfl hne
    · rfl
  · refine ⟨s, sN, hs, hmem, hchain, ?_⟩
    intro hin
    obtain ⟨p, hp⟩ := prevChain_mem s endN l2 sN hchain sN hin
    rw [prevChain_start s endN l2 sN hchain] at hp
    exact Prev.noConfusion hp

/-- C3 witness: on the three-node path graph the returned list `[2, 1]`
starts with the destination `2` and excludes the seeded start node. -/
theorem shortestPath_endpoints_witness :
    [2, 1].head? = some 2 ∧
    ∃ s sN, exApt3.shortestPathS 0 false 2 10 = some ([2, 1], s) ∧
      sN ∈ exApt3.dijkSeeds 0 false ∧ PrevChain s 2 [2, 1] sN ∧ sN ∉ [2, 1] :=
  shortestPath_endpoints exApt3 0 2 false 10 [2, 1] (by decide) (by decide)
    (by decide)

/-- C3 counterexample: searching the three-node path graph from node `0` to
node `2` returns `[2, 1]` — the start node `0` is not the last listed node;
it does not appear in the returned list at all, contradicting "from
destination to start inclusive of both endpoints". -/
theorem shortestPath_excludes_start_cex :
    exApt3.shortestPath 0 false 2 10 = some [2, 1] ∧
    [2, 1].getLast? ≠ some 0 ∧ 0 ∉ [2, 1] := by
  refine ⟨by decide, by decide, by decide⟩

/-- Bearing deviation of a candidate runway edge: the absolute heading
difference between the aircraft heading and the bearing towards the runway
endpoint aimed at (`headingDiff` of `LTAptFindRwy`). -/
def rwyDev (env : Env) (ac : Aircraft) (bHeadInverted : Bool)
    (c : Apt × Nat) : ℚ :=
  let rwyEP := rwyEPOf c.1 bHeadInverted c.2
  |env.headingDiff ac.toPos.headingD
    (env.coordAngle ac.toPos.lat ac.toPos.lon rwyEP.latD rwyEP.lonD)|

/-- Does a candidate runway edge pass the order-independent checks of the
`LTAptFindRwy` loop: known endpoint altitude, acceptable descent rate, and
deviation within the maximum (the initial value of `bestHeadingDiff`)? -/
def rwyPassesB (env : Env) (ac : Aircraft) (bHeadInverted : Bool)
    (speed vsiMin vsiMax : ℚ) (c : Apt × Nat) : Bool :=
  let rwyEP := rwyEPOf c.1 bHeadInverted c.2
  match rwyEP.alt_m with
  | none => false
  | some alt =>
    let fromP := ac.toPos
    let dist := env.coordDistance fromP.lat fromP.lon rwyEP.latD rwyEP.lonD
    let dts := dist / speed
    let vsi := (alt - fromP.alt.getD 0) / dts
    !decide (vsi < vsiMin ∨ vsiMax < vsi) &&
      decide (rwyDev env ac bHeadInverted c ≤ env.artRwyMaxHeadDiff)

/-- The best-match record the `LTAptFindRwy` loop stores when it accepts a
candidate. -/
def rwyMk (env : Env) (ac : Aircraft) (bHeadInverted : Bool) (speed : ℚ)
    (c : Apt × Nat) : RwyBest :=
  let rwyEP := rwyEPOf c.1 bHeadInverted c.2
  let dist := env.coordDistance ac.toPos.lat ac.toPos.lon rwyEP.latD rwyEP.lonD
  ⟨c.2, (c.1.edgeD c.2).angle, rwyEP, rwyDev env ac bHeadInverted c,
   ac.toPos.ts + dist / speed⟩

theorem rwyPassesB_dev (env : Env) (ac : Aircraft) (bHeadInverted : Bool)
    (speed vsiMin vsiMax : ℚ) (c : Apt × Nat)
    (h : rwyPassesB env ac bHeadInverted speed vsiMin vsiMax c = true) :
    rwyDev env ac bHeadInverted c ≤ env.artRwyMaxHeadDiff := by
  unfold rwyPassesB at h
  dsimp only at h
  split at h
  · exact absurd h (by simp)
  · rw [Bool.and_eq_true, decide_eq_true_eq] at h
    exact h.2

theorem rwyStep_cases (env : Env) (ac : Aircraft) (bHeadInverted : Bool)
    (speed vsiMin vsiMax : ℚ) (st : Option RwyBest × ℚ) (c : Apt × Nat) :
    (rwyStep env ac bHeadInverted speed vsiMin vsiMax st c = st ∧
       rwyPassesB env ac bHeadInverted speed vsiMin vsiMax c = false) ∨
    (rwyStep env ac bHeadInverted speed vsiMin vsiMax st c = st ∧
       st.2 < rwyDev env ac bHeadInverted c) ∨
    (rwyStep env ac bHeadInverted speed vsiMin vsiMax st c =
       (some (rwyMk env ac bHeadInverted speed c),
        rwyDev env ac bHeadInverted c) ∧
       rwyDev env ac bHeadInverted c ≤ st.2 ∧
       (rwyDev env ac bHeadInverted c ≤ env.artRwyMaxHeadDiff →
         rwyPassesB env ac bHeadInverted speed vsiMin vsiMax c = true)) := by
  unfold rwyStep
  dsimp only
  split
  · rename_i halt
    left
    refine ⟨rfl, ?_⟩
    unfold rwyPassesB
    dsimp only
    rw [halt]
  · rename_i alt halt
    split
    · rename_i hlt
      right
      left
      exact ⟨rfl, hlt⟩
    · rename_i hnlt
      split
      · rename_i hvsi
        left
        refine ⟨rfl, ?_⟩
        unfold rwyPassesB
        dsimp only
        rw [halt]
        simp [hvsi]
      · rename_i hvsiOk
        right
        right
        refine ⟨rfl, not_lt.mp hnlt, fun hdev => ?_⟩
        unfold rwyPassesB
        dsimp only
        rw [halt]
        simp [hvsiOk, hdev]

theorem rwyFold_inv (env : Env) (ac : Aircraft) (bHeadInverted : Bool)
    (speed vsiMin vsiMax : ℚ) :
    ∀ (cs : List (Apt × Nat)) (st : Option RwyBest × ℚ),
      st.2 ≤ env.artRwyMaxHeadDiff →
      (∀ pb, st.1 = some pb → pb.hd = st.2) →
      (st.1 = none → st.2 = env.artRwyMaxHeadDiff) →
      (cs.foldl (rwyStep env ac bHeadInverted speed vsiMin vsiMax) st).2 ≤
        st.2 ∧
      (∀ pb,
        (cs.foldl (rwyStep env ac bHeadInverted speed vsiMin vsiMax) st).1 =
          some pb →
        pb.hd =
          (cs.foldl (rwyStep env ac bHeadInverted speed vsiMin vsiMax) st).2 ∧
        ((∃ c ∈ cs,
            rwyPassesB env ac bHeadInverted speed vsiMin vsiMax c = true ∧
            pb = rwyMk env ac bHeadInverted speed c) ∨ st.1 = some pb)) ∧
      (∀ c ∈ cs,
        rwyPassesB env ac bHeadInverted speed vsiMin vsiMax c = true →
        (cs.foldl (rwyStep env ac bHeadInverted speed vsiMin vsiMax) st).2 ≤
          rwyDev env ac bHeadInverted c) ∧
      ((cs.foldl (rwyStep env ac bHeadInverted speed vsiMin vsiMax) st).1 =
          none →
        st.1 = none ∧
        ∀ c ∈ cs,
          rwyPassesB env ac bHeadInverted speed vsiMin vsiMax c = false) := by
  intro cs
  induction cs with
  | nil =>
    intro st h1 h2 h3
    refine ⟨le_refl _, ?_, ?_, ?_⟩
    · intro pb hpb
      exact ⟨h2 pb hpb, Or.inr hpb⟩
    · intro c hc
      exact absurd hc (List.not_mem_nil c)
    · intro hn
      exact ⟨hn, fun c hc => absurd hc (List.not_mem_nil c)⟩
  | cons c cs ih =>
    intro st h1 h2 h3
    rw [List.foldl_cons]
    rcases rwyStep_cases env ac bHeadInverted speed vsiMin vsiMax st c with
      ⟨hst, hP⟩ | ⟨hst, hlt⟩ | ⟨hst, hle, hPimp⟩
    · rw [hst]
      obtain ⟨g1, g2, g3, g4⟩ := ih st h1 h2 h3
      refine ⟨g1, ?_, ?_, ?_⟩
      · intro pb hpb
        obtain ⟨ga, gb⟩ := g2 pb hpb
        refine ⟨ga, ?_⟩
        rcases gb with ⟨c2, hc2, hp2, hm2⟩ | hb
        · exact Or.inl ⟨c2, List.mem_cons_of_mem c hc2, hp2, hm2⟩
        · exact Or.inr hb
      · intro c2 hc2 hp2
        rcases List.mem_cons.mp hc2 with rfl | hc2
        · rw [hP] at hp2
          exact absurd hp2 (by simp)
        · exact g3 c2 hc2 hp2
      · intro hn
        obtain ⟨hsn, hall⟩ := g4 hn
        refine ⟨hsn, ?_⟩
        intro c2 hc2
        rcases List.mem_cons.mp hc2 with rfl | hc2
        · exact hP
        · exact hall c2 hc2
    · rw [hst]
      obtain ⟨g1, g2, g3, g4⟩ := ih st h1 h2 h3
      refine ⟨g1, ?_, ?_, ?_⟩
      · intro pb hpb
        obtain ⟨ga, gb⟩ := g2 pb hpb
        refine ⟨ga, ?_⟩
        rcases gb with ⟨c2, hc2, hp2, hm2⟩ | hb
        · exact Or.inl ⟨c2, List.mem_cons_of_mem c hc2, hp2, hm2⟩
        · exact Or.inr hb
      · intro c2 hc2 hp2
        rcases List.mem_cons.mp hc2 with rfl | hc2
        · exact le_trans g1 (le_of_lt hlt)
        · exact g3 c2 hc2 hp2
      · intro hn
        obtain ⟨hsn, hall⟩ := g4 hn
        refine ⟨hsn, ?_⟩
        intro c2 hc2
        rcases List.mem_cons.mp hc2 with rfl | hc2
        · rw [← Bool.not_eq_true]
          intro hPc
          have hdev := rwyPassesB_dev env ac bHeadInverted speed vsiMin
            vsiMax c2 hPc
          rw [← h3 hsn] at hdev
          exact absurd hlt (not_lt.mpr hdev)
        · exact hall c2 hc2
    · rw [hst]
      have hdev : rwyDev env ac bHeadInverted c ≤ env.artRwyMaxHeadDiff :=
        le_trans hle h1
      have hP := hPimp hdev
      obtain ⟨g1, g2, g3, g4⟩ := ih
        (some (rwyMk env ac bHeadInverted speed c),
         rwyDev env ac bHeadInverted c)
        hdev
        (by
          intro pb hpb
          rw [Option.some.injEq] at hpb
          subst hpb
          rfl)
        (by
          intro hn
          exact absurd hn (by simp))
      refine ⟨le_trans g1 hle, ?_, ?_, ?_⟩
      · intro pb hpb
        obtain ⟨ga, gb⟩ := g2 pb hpb
        refine ⟨ga, ?_⟩
        rcases gb with ⟨c2, hc2, hp2, hm2⟩ | hb
        · exact Or.inl ⟨c2, List.mem_cons_of_mem c hc2, hp2, hm2⟩
        · rw [Option.some.injEq] at hb
          exact Or.inl ⟨c, List.mem_cons_self c cs, hP, hb.symm⟩
      · intro c2 hc2 hp2
        rcases List.mem_cons.mp hc2 with rfl | hc2
        · exact g1
        · exact g3 c2 hc2 hp2
      · intro hn
        obtain ⟨hsn, _⟩ := g4 hn
        exact absurd hsn (by simp)

/-- C7 (amended): among all candidate runway endpoints across the
registered airports that pass the heading-window, known-altitude and
vertical-speed checks, an endpoint with the *smallest* bearing deviation
from the aircraft heading wins (a candidate is rejected exactly when its
deviation strictly exceeds the best deviation found so far, which starts
at the allowed maximum), and when no candidate passes there is no match;
however, a tie in deviation is broken in favour of the *last* candidate in
search order, not the first. -/
theorem findRwy_min_deviation (env : Env) (registry : List Apt)
    (ac : Aircraft) (headSearch : ℚ) (bHeadInverted : Bool)
    (speed vsiMin vsiMax : ℚ) (r : Option RwyBest × ℚ)
    (hr : r = (rwyCandidates env registry headSearch).foldl
            (rwyStep env ac bHeadInverted speed vsiMin vsiMax)
            (none, env.artRwyMaxHeadDiff)) :
    (∀ b, r.1 = some b →
       b.hd = r.2 ∧
       (∃ c ∈ rwyCandidates env registry headSearch,
          rwyPassesB env ac bHeadInverted speed vsiMin vsiMax c = true ∧
          b = rwyMk env ac bHeadInverted speed c) ∧
       (∀ c ∈ rwyCandidates env registry headSearch,
          rwyPassesB env ac bHeadInverted speed vsiMin vsiMax c = true →
          b.hd ≤ rwyDev env ac bHeadInverted c)) ∧
    (r.1 = none →
       ∀ c ∈ rwyCandidates env registry headSearch,
         rwyPassesB env ac bHeadInverted speed vsiMin vsiMax c = false) := by
  subst hr
  obtain ⟨g1, g2, g3, g4⟩ := rwyFold_inv env ac bHeadInverted speed vsiMin
    vsiMax (rwyCandidates env registry headSearch)
    (none, env.artRwyMaxHeadDiff) (le_refl _)
    (by
      intro pb hpb
      exact absurd hpb (by simp))
    (fun _ => rfl)
  constructor
  · intro b hb
    obtain ⟨ga, gb⟩ := g2 b hb
    refine ⟨ga, ?_, ?_⟩
    · rcases gb with hex | hb2
      · exact hex
      · exact absurd hb2 (by simp)
    · intro c hc hp
      rw [ga]
      exact g3 c hc hp
  · intro hn c hc
    exact (g4 hn).2 c hc

/-- Concrete airport for the runway-selection counterexample: two parallel
runways `0-1` and `2-3` (endpoint pairs in `vecRwyEndPts`), both at stored
angle `90°`. -/
def cexApt7 : Apt :=
  { id := "", bounds := ⟨none, none, none, none⟩, alt_m := none,
    vecTaxiNodes := [],
    vecRwyEndPts := [⟨⟨some 0, some 5, []⟩, "08", some 700, []⟩,
                     ⟨⟨some 0, some (-5), []⟩, "26", some 700, []⟩,
                     ⟨⟨some 1, some 5, []⟩, "08R", some 640, []⟩,
                     ⟨⟨some 1, some (-5), []⟩, "26L", some 640, []⟩],
    vecTaxiEdges := [TaxiEdge.make EdgeTy.RUN_WAY 0 1 90 10,
                     TaxiEdge.make EdgeTy.RUN_WAY 2 3 90 10],
    vecTaxiEdgesIdxHead := [0, 1] }

/-- Concrete aircraft for the runway-selection counterexample: heading
`90°` at altitude `1000`, speed `10`, final descent rate `-600`. -/
def cexAc : Aircraft :=
  { mdl := ⟨10, -600, 20, 2⟩,
    toPos := { lat := 0, lon := 0, alt := some 1000, ts := 0,
               heading := some 90, pitch := 0, roll := 0,
               flightPhase := FlightPhase.UNKNOWN,
               edgeIdx := EdgeAssoc.unknown },
    speed := 10 }

/-- C7 witness: on the two-runway airport the search keeps the last
candidate; it passes all checks, and its deviation is minimal among the
passing candidates. -/
theorem findRwy_min_deviation_witness :
    (rwyMk wEnv cexAc false 10 (cexApt7, 1)).hd =
      ((rwyCandidates wEnv [cexApt7] 90).foldl
        (rwyStep wEnv cexAc false 10 (-1200) (-300))
        (none, wEnv.artRwyMaxHeadDiff)).2 ∧
    (∃ c ∈ rwyCandidates wEnv [cexApt7] 90,
       rwyPassesB wEnv cexAc false 10 (-1200) (-300) c = true ∧
       rwyMk wEnv cexAc false 10 (cexApt7, 1) = rwyMk wEnv cexAc false 10 c) ∧
    (∀ c ∈ rwyCandidates wEnv [cexApt7] 90,
       rwyPassesB wEnv cexAc false 10 (-1200) (-300) c = true →
       (rwyMk wEnv cexAc false 10 (cexApt7, 1)).hd ≤
         rwyDev wEnv cexAc false c) :=
  (findRwy_min_deviation wEnv [cexApt7] cexAc 90 false 10 (-1200) (-300)
    ((rwyCandidates wEnv [cexApt7] 90).foldl
      (rwyStep wEnv cexAc false 10 (-1200) (-300))
      (none, wEnv.artRwyMaxHeadDiff)) rfl).1
    (rwyMk wEnv cexAc false 10 (cexApt7, 1)) (by decide)

/-- C7 counterexample: both runway candidates pass every check with the
*same* bearing deviation, yet `LTAptFindRwy` returns the touch-down
position of the *second* candidate's endpoint (latitude `1`), not the
first one found (latitude `0`) — ties are broken by the last candidate in
search order, not the first. -/
theorem findRwy_tie_last_cex :
    rwyCandidates wEnv [cexApt7] 90 = [(cexApt7, 0), (cexApt7, 1)] ∧
    rwyDev wEnv cexAc false (cexApt7, 0) = rwyDev wEnv cexAc false (cexApt7, 1) ∧
    rwyPassesB wEnv cexAc false 10 (-1200) (-300) (cexApt7, 0) = true ∧
    rwyPassesB wEnv cexAc false 10 (-1200) (-300) (cexApt7, 1) = true ∧
    ltAptFindRwy wEnv [cexApt7] cexAc =
      some { lat := 1, lon := 5, alt := some 640, ts := 3 / 5,
             heading := some 90, pitch := 2, roll := 0,
             flightPhase := FlightPhase.TOUCH_DOWN,
             edgeIdx := EdgeAssoc.unknown } ∧
    (rwyEPOf cexApt7 false 0).latD ≠ 1 := by
  refine ⟨by decide, by decide, by decide, by decide, by decide, by decide⟩

/-- C8 (amended): when the snap operation resolves a position to a
runway-type edge it moves the position to the computed base point on that
edge, records the edge association, and returns right away without
attempting any shortest-path insertion (the deque keeps its length, so
synthesized intermediate positions only ever arise on the taxiway branch)
— but contrary to the spec no runway *mark* is applied: the flight phase
of the moved position is left unchanged (the taxiway branch is the one
that sets `FPH_TAXI`; the code comments that positions on a runway are not
marked yet). -/
theorem snap_runway_early_return (env : Env) (apt : Apt) (fd : FlightData)
    (i eIdx : Nat) (nlat nlon : ℚ)
    (hfce : apt.findClosestEdge env (fd.posDeque.getD i Position.empty)
        env.fdSnapTaxiDist env.artEdgeAngleTolerance
        env.artEdgeAngleToleranceExt none = some (eIdx, nlat, nlon))
    (hrwy : (apt.edgeD eIdx).type = EdgeTy.RUN_WAY) :
    apt.snapToTaxiway env fd i =
      some (true,
        { fd with posDeque := fd.posDeque.set i
                    { fd.posDeque.getD i Position.empty with
                        lat := nlat, lon := nlon,
                        edgeIdx := EdgeAssoc.onEdge eIdx } },
        i) ∧
    ({ fd.posDeque.getD i Position.empty with
         lat := nlat, lon := nlon,
         edgeIdx := EdgeAssoc.onEdge eIdx} : Position).flightPhase =
      (fd.posDeque.getD i Position.empty).flightPhase ∧
    (fd.posDeque.set i
        { fd.posDeque.getD i Position.empty with
            lat := nlat, lon := nlon,
            edgeIdx := EdgeAssoc.onEdge eIdx }).length =
      fd.posDeque.length := by
  refine ⟨?_, rfl, List.length_set _ _ _⟩
  unfold Apt.snapToTaxiway
  dsimp only
  rw [hfce]
  dsimp only
  rw [if_pos hrwy]

/-- Concrete airport for the runway-snap counterexample: a single runway
`0-1` along latitude `0` from longitude `-5` to `5`. -/
def cexApt8 : Apt :=
  { id := "", bounds := ⟨none, none, none, none⟩, alt_m := none,
    vecTaxiNodes := [],
    vecRwyEndPts := [⟨⟨some 0, some (-5), []⟩, "09", some 0, []⟩,
                     ⟨⟨some 0, some 5, []⟩, "27", some 0, []⟩],
    vecTaxiEdges := [TaxiEdge.make EdgeTy.RUN_WAY 0 1 90 10],
    vecTaxiEdgesIdxHead := [0] }

/-- Concrete position one unit of latitude off the runway of `cexApt8`,
heading `90°`, in an unknown flight phase. -/
def pos8 : Position :=
  { lat := 1, lon := 0, alt := none, ts := 0, heading := some 90,
    pitch := 0, roll := 0, flightPhase := FlightPhase.UNKNOWN,
    edgeIdx := EdgeAssoc.unknown }

/-- Concrete flight data whose only deque position is `pos8`. -/
def fd8 : FlightData :=
  { posDeque := [pos8], hasAc := false, acToPos := Position.empty,
    mdl := ⟨10, -600, 20, 2⟩ }

/-- C8 witness: the snap of `pos8` resolves to the runway edge of
`cexApt8`, moves the position onto the runway and returns early with the
deque length preserved. -/
theorem snap_runway_early_return_witness :
    cexApt8.snapToTaxiway wEnv fd8 0 =
      some (true,
        { fd8 with posDeque := fd8.posDeque.set 0
                     { fd8.posDeque.getD 0 Position.empty with
                         lat := 0, lon := 0,
                         edgeIdx := EdgeAssoc.onEdge 0 } },
        0) ∧
    ({ fd8.posDeque.getD 0 Position.empty with
         lat := 0, lon := 0,
         edgeIdx := EdgeAssoc.onEdge 0} : Position).flightPhase =
      (fd8.posDeque.getD 0 Position.empty).flightPhase ∧
    (fd8.posDeque.set 0
        { fd8.posDeque.getD 0 Position.empty with
            lat := 0, lon := 0,
            edgeIdx := EdgeAssoc.onEdge 0 }).length =
      fd8.posDeque.length :=
  snap_runway_early_return wEnv cexApt8 fd8 0 0 0 0 (by decide) (by decide)

/-- C8 counterexample: after snapping onto the runway edge the position's
flight phase is still `UNKNOWN` — the position is *not* marked as on a
runway (no flight-phase or other runway mark is applied; only the edge
association is recorded). -/
theorem snap_runway_no_mark_cex :
    (cexApt8.edgeD 0).type = EdgeTy.RUN_WAY ∧
    (cexApt8.snapToTaxiway wEnv fd8 0).map
        (fun r => ((r.2.1.posDeque.getD 0 Position.empty).flightPhase,
                   (r.2.1.posDeque.getD 0 Position.empty).lat,
                   (r.2.1.posDeque.getD 0 Position.empty).lon,
                   (r.2.1.posDeque.getD 0 Position.empty).edgeIdx)) =
      some (FlightPhase.UNKNOWN, 0, 0, EdgeAssoc.onEdge 0) := by
  refine ⟨by decide, by decide⟩

theorem mem_dropWhile_sorted (apt : Apt) (lo : ℚ) :
    ∀ (l : List Nat), l.Pairwise
        (fun i j => (apt.edgeD i).angle ≤ (apt.edgeD j).angle) →
      ∀ i, i ∈ l.dropWhile (fun i => decide ((apt.edgeD i).angle < lo)) ↔
        i ∈ l ∧ lo ≤ (apt.edgeD i).angle := by
  intro l
  induction l with
  | nil =>
    intro _ i
    simp
  | cons x xs ih =>
    intro hp i
    rw [List.pairwise_cons] at hp
    rw [List.dropWhile_cons]
    split
    · rename_i hx
      rw [decide_eq_true_eq] at hx
      rw [ih hp.2 i, List.mem_cons]
      constructor
      · rintro ⟨hm, hlo⟩
        exact ⟨Or.inr hm, hlo⟩
      · rintro ⟨hm | hm, hlo⟩
        · rw [hm] at hlo
          exact absurd hx (not_lt.mpr hlo)
        · exact ⟨hm, hlo⟩
    · rename_i hx
      rw [decide_eq_true_eq, not_lt] at hx
      constructor
      · intro hm
        refine ⟨hm, ?_⟩
        rcases List.mem_cons.mp hm with rfl | hm2
        · exact hx
        · exact le_trans hx (hp.1 i hm2)
      · rintro ⟨hm, _⟩
        exact hm

theorem mem_takeWhile_sorted (apt : Apt) (hi : ℚ) :
    ∀ (l : List Nat), l.Pairwise
        (fun i j => (apt.edgeD i).angle ≤ (apt.edgeD j).angle) →
      ∀ i, i ∈ l.takeWhile (fun i => decide ((apt.edgeD i).angle ≤ hi)) ↔
        i ∈ l ∧ (apt.edgeD i).angle ≤ hi := by
  intro l
  induction l with
  | nil =>
    intro _ i
    simp
  | cons x xs ih =>
    intro hp i
    rw [List.pairwise_cons] at hp
    rw [List.takeWhile_cons]
    split
    · rename_i hx
      rw [decide_eq_true_eq] at hx
      rw [List.mem_cons, ih hp.2 i, List.mem_cons]
      constructor
      · rintro (rfl | ⟨hm, hle⟩)
        · exact ⟨Or.inl rfl, hx⟩
        · exact ⟨Or.inr hm, hle⟩
      · rintro ⟨rfl | hm, hle⟩
        · exact Or.inl rfl
        · exact Or.inr ⟨hm, hle⟩
    · rename_i hx
      rw [decide_eq_true_eq, not_le] at hx
      constructor
      · intro hm
        exact absurd hm (List.not_mem_nil i)
      · rintro ⟨hm, hle⟩
        rcases List.mem_cons.mp hm with rfl | hm2
        · exact absurd hle (not_le.mpr hx)
        · exact absurd hle (not_le.mpr (lt_of_lt_of_le hx (hp.1 i hm2)))

theorem rangeScan_mem (apt : Apt) (lo hi : ℚ) (ty : EdgeTy)
    (hsort : apt.vecTaxiEdgesIdxHead.Pairwise
      (fun i j => (apt.edgeD i).angle ≤ (apt.edgeD j).angle)) (i : Nat) :
    i ∈ apt.rangeScan lo hi ty ↔
      i ∈ apt.vecTaxiEdgesIdxHead ∧ lo ≤ (apt.edgeD i).angle ∧
      (apt.edgeD i).angle ≤ hi ∧
      (ty = EdgeTy.UNKNOWN_WAY ∨ ty = (apt.edgeD i).type) := by
  unfold Apt.rangeScan
  rw [List.mem_filter,
    mem_takeWhile_sorted apt hi _
      (hsort.sublist (List.dropWhile_sublist _)) i,
    mem_dropWhile_sorted apt lo _ hsort i,
    decide_eq_true_eq]
  tauto

theorem wrapA_iff (a h tol : ℚ) (ha : 0 ≤ a) (ha' : a < 180) (hh : 0 ≤ h)
    (hh' : h < 180) (htol : 0 ≤ tol) (hw : h - tol < 0) :
    headDiff180 a h ≤ tol ↔ (a ≤ h + tol ∨ h - tol + 180 ≤ a) := by
  rcases abs_cases (a - h) with ⟨he, hsign⟩ | ⟨he, hsign⟩ <;>
    rw [headDiff180, he, min_le_iff] <;>
    constructor <;>
    rintro (h1 | h1) <;>
    first
    | (left; linarith)
    | (right; linarith)

theorem wrapB_iff (a h tol : ℚ) (ha : 0 ≤ a) (ha' : a < 180) (hh : 0 ≤ h)
    (hh' : h < 180) (htol : 0 ≤ tol) (hw : 180 ≤ h + tol) (hw0 : 0 ≤ h - tol) :
    headDiff180 a h ≤ tol ↔ (a ≤ h + tol - 180 ∨ h - tol ≤ a) := by
  rcases abs_cases (a - h) with ⟨he, hsign⟩ | ⟨he, hsign⟩ <;>
    rw [headDiff180, he, min_le_iff] <;>
    constructor <;>
    rintro (h1 | h1) <;>
    first
    | (left; linarith)
    | (right; linarith)

/-- C5: for every graph whose angle-sorted index is a sorted permutation of
the edge indexes and whose edge angles are normalized into `[0,180)`, every
normalized search heading and every nonnegative tolerance whose window
spills below `0°` or above `180°`, `FindEdgesForHeading` returns the
concatenation (union) of two unwrapped sub-range scans — one clipped near
`0°` and one near `180°` — and an edge index is in the result exactly when
the edge exists, passes the type restriction, and its angle lies within
the tolerance of the search heading modulo `180°`. -/
theorem findEdgesForHeading_wrap_union (apt : Apt) (headSearch tol : ℚ)
    (ty : EdgeTy)
    (hsort : apt.vecTaxiEdgesIdxHead.Pairwise
      (fun i j => (apt.edgeD i).angle ≤ (apt.edgeD j).angle))
    (hperm : List.Perm apt.vecTaxiEdgesIdxHead
      (List.range apt.vecTaxiEdges.length))
    (hang : ∀ e ∈ apt.vecTaxiEdges, 0 ≤ e.angle ∧ e.angle < 180)
    (hh0 : 0 ≤ headSearch) (hh1 : headSearch < 180) (htol : 0 ≤ tol)
    (hwrap : headSearch - tol < 0 ∨ 180 ≤ headSearch + tol) :
    apt.findEdgesForHeading headSearch tol ty =
      (if headSearch - tol < 0 then
        apt.rangeScan 0 (headSearch + tol) ty ++
          apt.rangeScan (headSearch - tol + 180) 180 ty
      else
        apt.rangeScan 0 (headSearch + tol - 180) ty ++
          apt.rangeScan (headSearch - tol) 180 ty) ∧
    ∀ i, i ∈ apt.findEdgesForHeading headSearch tol ty ↔
      (i < apt.vecTaxiEdges.length ∧
       (ty = EdgeTy.UNKNOWN_WAY ∨ ty = (apt.edgeD i).type) ∧
       headDiff180 (apt.edgeD i).angle headSearch ≤ tol) := by
  have hmemE : ∀ i : Nat, i ∈ apt.vecTaxiEdgesIdxHead ↔
      i < apt.vecTaxiEdges.length := by
    intro i
    rw [hperm.mem_iff, List.mem_range]
  have hno : ¬(0 ≤ headSearch - tol ∧ headSearch + tol < 180) := by
    rcases hwrap with hw | hw
    · intro hc
      linarith [hc.1]
    · intro hc
      linarith [hc.2]
  have heq : apt.findEdgesForHeading headSearch tol ty =
      (if headSearch - tol < 0 then
        apt.rangeScan 0 (headSearch + tol) ty ++
          apt.rangeScan (headSearch - tol + 180) 180 ty
      else
        apt.rangeScan 0 (headSearch + tol - 180) ty ++
          apt.rangeScan (headSearch - tol) 180 ty) := by
    unfold Apt.findEdgesForHeading
    dsimp only
    rw [if_neg (not_le.mpr hh1), if_neg hno]
  refine ⟨heq, ?_⟩
  intro i
  rw [heq]
  constructor
  · intro hm
    have hm2 := hm
    split at hm2
    · rename_i hA
      rw [List.mem_append, rangeScan_mem apt _ _ ty hsort i,
        rangeScan_mem apt _ _ ty hsort i, hmemE i] at hm2
      rcases hm2 with ⟨hiE, _, h1, hty⟩ | ⟨hiE, h0, _, hty⟩
      · refine ⟨hiE, hty, ?_⟩
        rw [wrapA_iff _ _ _ (hang _ (edgeD_mem apt hiE)).1
          (hang _ (edgeD_mem apt hiE)).2 hh0 hh1 htol hA]
        exact Or.inl h1
      · refine ⟨hiE, hty, ?_⟩
        rw [wrapA_iff _ _ _ (hang _ (edgeD_mem apt hiE)).1
          (hang _ (edgeD_mem apt hiE)).2 hh0 hh1 htol hA]
        exact Or.inr h0
    · rename_i hA
      have hB : 180 ≤ headSearch + tol := by
        rcases hwrap with hw | hw
        · exact absurd hw hA
        · exact hw
      rw [List.mem_append, rangeScan_mem apt _ _ ty hsort i,
        rangeScan_mem apt _ _ ty hsort i, hmemE i] at hm2
      rcases hm2 with ⟨hiE, _, h1, hty⟩ | ⟨hiE, h0, _, hty⟩
      · refine ⟨hiE, hty, ?_⟩
        rw [wrapB_iff _ _ _ (hang _ (edgeD_mem apt hiE)).1
          (hang _ (edgeD_mem apt hiE)).2 hh0 hh1 htol hB (not_lt.mp hA)]
        exact Or.inl h1
      · refine ⟨hiE, hty, ?_⟩
        rw [wrapB_iff _ _ _ (hang _ (edgeD_mem apt hiE)).1
          (hang _ (edgeD_mem apt hiE)).2 hh0 hh1 htol hB (not_lt.mp hA)]
        exact Or.inr h0
  · rintro ⟨hiE, hty, hdev⟩
    have hai := hang _ (edgeD_mem apt hiE)
    split
    · rename_i hA
      rw [wrapA_iff _ _ _ hai.1 hai.2 hh0 hh1 htol hA] at hdev
      rw [List.mem_append, rangeScan_mem apt _ _ ty hsort i,
        rangeScan_mem apt _ _ ty hsort i, hmemE i]
      rcases hdev with h1 | h0
      · exact Or.inl ⟨hiE, hai.1, h1, hty⟩
      · exact Or.inr ⟨hiE, h0, le_of_lt hai.2, hty⟩
    · rename_i hA
      have hB : 180 ≤ headSearch + tol := by
        rcases hwrap with hw | hw
        · exact absurd hw hA
        · exact hw
      rw [wrapB_iff _ _ _ hai.1 hai.2 hh0 hh1 htol hB (not_lt.mp hA)] at hdev
      rw [List.mem_append, rangeScan_mem apt _ _ ty hsort i,
        rangeScan_mem apt _ _ ty hsort i, hmemE i]
      rcases hdev with h1 | h0
      · exact Or.inl ⟨hiE, hai.1, h1, hty⟩
      · exact Or.inr ⟨hiE, h0, le_of_lt hai.2, hty⟩

/-- Concrete airport for the wrap-around heading query: two taxiway edges
at angles `2°` and `170°` over three nodes, with a sorted angle index. -/
def wApt5 : Apt :=
  { id := "", bounds := ⟨none, none, none, none⟩, alt_m := none,
    vecTaxiNodes := [⟨some 0, some 0, [0]⟩, ⟨some 10, some 1, [0, 1]⟩,
                     ⟨some 0, some 2, [1]⟩],
    vecRwyEndPts := [],
    vecTaxiEdges := [TaxiEdge.make EdgeTy.TAXI_WAY 0 1 2 10,
                     TaxiEdge.make EdgeTy.TAXI_WAY 1 2 170 10],
    vecTaxiEdgesIdxHead := [0, 1] }

/-- C5 witness: searching `wApt5` at heading `178°` with tolerance `10°`
(window `[168°,188°]`, spilling past `180°`) finds edge `1` (angle `170°`,
deviation `8°` modulo `180°`). -/
theorem findEdgesForHeading_wrap_union_witness :
    1 ∈ wApt5.findEdgesForHeading 178 10 EdgeTy.UNKNOWN_WAY ↔
      (1 < wApt5.vecTaxiEdges.length ∧
       (EdgeTy.UNKNOWN_WAY = EdgeTy.UNKNOWN_WAY ∨
        EdgeTy.UNKNOWN_WAY = (wApt5.edgeD 1).type) ∧
       headDiff180 (wApt5.edgeD 1).angle 178 ≤ 10) :=
  (findEdgesForHeading_wrap_union wApt5 178 10 EdgeTy.UNKNOWN_WAY (by decide)
    (by decide) (by decide) (by decide) (by decide) (by decide)
    (by decide)).2 1
